import Mathlib

/-!
Verification of the HexSweeper game engine (hexagonal-grid Minesweeper).

The definitions below are a shallow embedding of the engine sources
`hexsweeper/hexgrid.py` and `hexsweeper/tile.py` (the packaged, later
variant of the engine; the repository also ships an older root-level
`hexgrid.py` whose game-over evaluator additionally had a flag-matching
win rule, which the later variant dropped).

Conventions of the embedding:
* Python integers become `Int`; board coordinates are pairs `(x, y) : Int × Int`.
* The jagged tile array `self.grid` (indexed `grid[y][x]`) becomes
  `List (List Tile)`; in-place mutation becomes functional update.
* `random.sample(possible, k)` is modelled by passing the sampled list as an
  explicit argument; its documented contract (k distinct elements of
  `possible`) appears as hypotheses in the theorems about mine generation.
* `time.time()` is modelled by an explicit `now : Int` argument.
* The redraw/alert callbacks become an accumulated list of `GameEvent`s.
* A raised `ValueError` becomes `Except ConfigError`.
* Screen-coordinate arithmetic (Python floats) is modelled over `ℝ`;
  Python `int()` truncation is `pyInt` and Python 3 `round` (half-to-even)
  is `pyRound`.
-/

/-- A board position `(x, y)`: `x` is the column inside row `y`. -/
abbrev GamePos := Int × Int

/-! ## Coordinate geometry (`HexGrid.row_count`, `cell_count_in_row`, …) -/

/-- `HexGrid.row_count`: total number of rows, `2 * size - 1`. -/
def rowCount (size : Int) : Int := 2 * size - 1

/-- `HexGrid.cell_count_in_row`: number of cells in row `y`. -/
def cellCountInRow (size y : Int) : Int := size + min y (2 * size - 2 - y)

/-- `HexGrid.highest_row_cell_count`: cells in the longest (middle) row. -/
def highestRowCellCount (size : Int) : Int := 2 * size - 1

/-- `HexGrid.highest_possible_mine_count_for_size`: total tiles minus one. -/
def highestPossibleMineCountForSize (size : Int) : Int :=
  (3 * size ^ 2 - 3 * size + 1) - 1

/-- `HexGrid.all_valid_coords`: all `(x, y)` pairs, row by row. -/
def allValidCoords (size : Int) : List GamePos :=
  (List.range (rowCount size).toNat).flatMap (fun y =>
    (List.range (cellCountInRow size (y : Int)).toNat).map
      (fun x : Nat => (((x : Nat) : Int), ((y : Nat) : Int))))

/-- `HexGrid.is_y_valid`: `0 <= y < row_count`. -/
def isYValid (size y : Int) : Bool := decide (0 ≤ y) && decide (y < rowCount size)

/-- `HexGrid.is_x_valid`: `0 <= x < cell_count_in_row(y)`. -/
def isXValid (size x y : Int) : Bool :=
  decide (0 ≤ x) && decide (x < cellCountInRow size y)

/-- `HexGrid.is_position_valid`. -/
def isPositionValid (size x y : Int) : Bool := isYValid size y && isXValid size x y

/-- `HexGrid.adjacent_positions`: four base candidates plus two band-dependent
diagonals, filtered to valid positions. -/
def adjacentPositions (size x y : Int) : List GamePos :=
  let possibleBase : List GamePos := [(x, y + 1), (x, y - 1), (x + 1, y), (x - 1, y)]
  let possibleExtra : List GamePos :=
    if y < size - 1 then [(x + 1, y + 1), (x - 1, y - 1)]
    else if y = size - 1 then [(x - 1, y + 1), (x - 1, y - 1)]
    else [(x + 1, y - 1), (x - 1, y + 1)]
  (possibleBase ++ possibleExtra).filter (fun p => isPositionValid size p.1 p.2)

/-! ## Tile state (`tile.py`) -/

/-- `Tile`: the three mutable booleans of a tile.  (The Python object also
stores its coordinates and a back-reference to the game; in the embedding a
tile is addressed by its position in the grid, so those are dropped.) -/
structure Tile where
  revealed : Bool
  mine : Bool
  flag : Bool
deriving DecidableEq, Repr

/-- `Tile.__init__`: fresh tiles have no mine, no flag, not revealed. -/
def blankTile : Tile := ⟨false, false, false⟩

/-- `Tile.reveal`: sets `revealed` unless the tile is flagged. -/
def Tile.reveal (t : Tile) : Tile :=
  if t.flag then t else { t with revealed := true }

/-- `Tile.change_into_mine`. -/
def Tile.changeIntoMine (t : Tile) : Tile := { t with mine := true }

/-- `Tile.color`; `adjCount` stands for `self.adjacent_mine_count()`, which the
Python method obtains through the back-reference to the game. -/
def Tile.color (adjCount : Int) (t : Tile) : String :=
  if t.revealed then
    if t.mine then "red"
    else if adjCount > 0 then "orange"
    else "lightgreen"
  else if t.flag then "purple"
  else "lightblue"

/-- `Tile.can_toggle_flag`: the color-diffing heuristic — allowed when already
flagged, otherwise allowed iff simulating a flag changes the rendered color. -/
def Tile.canToggleFlag (adjCount : Int) (t : Tile) : Bool :=
  if t.flag then true
  else decide (Tile.color adjCount t ≠ Tile.color adjCount { t with flag := true })

/-- `Tile.set_flag`: no-op if already flagged or toggling is disallowed. -/
def Tile.setFlagTile (adjCount : Int) (t : Tile) : Tile :=
  if t.flag then t
  else if !t.canToggleFlag adjCount then t
  else { t with flag := true }

/-- `Tile.unset_flag`: no-op if not flagged or toggling is disallowed. -/
def Tile.unsetFlagTile (adjCount : Int) (t : Tile) : Tile :=
  if !t.flag then t
  else if !t.canToggleFlag adjCount then t
  else { t with flag := false }

/-! ## The grid container (`hexgrid.py`) -/

/-- `HexGrid`: size, mine count, session clock, lazy-generation flag and the
jagged row-major tile collection (`self.grid[y][x]`). -/
structure HexGrid where
  size : Int
  mineCount : Int
  startTime : Int
  minesHaveBeenGenerated : Bool
  grid : List (List Tile)
deriving DecidableEq, Repr

/-- Read the tile at `(x, y)`; used for accesses the engine performs only at
validated positions (out-of-range reads default to a blank tile). -/
def HexGrid.getTile (g : HexGrid) (p : GamePos) : Tile :=
  (g.grid.getD p.2.toNat []).getD p.1.toNat blankTile

/-- Write the tile at `(x, y)` (functional update of `self.grid[y][x]`). -/
def HexGrid.setTile (g : HexGrid) (p : GamePos) (t : Tile) : HexGrid :=
  { g with grid := g.grid.set p.2.toNat ((g.grid.getD p.2.toNat []).set p.1.toNat t) }

/-- `self[pos].reveal()`. -/
def HexGrid.revealAt (g : HexGrid) (p : GamePos) : HexGrid :=
  g.setTile p (g.getTile p).reveal

/-- `self[pos].change_into_mine()`. -/
def HexGrid.changeIntoMineAt (g : HexGrid) (p : GamePos) : HexGrid :=
  g.setTile p (g.getTile p).changeIntoMine

/-- `HexGrid.adjacent_mine_count`: number of adjacent tiles holding mines. -/
def HexGrid.adjacentMineCount (g : HexGrid) (x y : Int) : Int :=
  (((adjacentPositions g.size x y).filter (fun p => (g.getTile p).mine)).length : Int)

/-- `self[x, y].can_toggle_flag()` with the adjacent count supplied by the grid. -/
def HexGrid.canToggleFlagAt (g : HexGrid) (p : GamePos) : Bool :=
  (g.getTile p).canToggleFlag (g.adjacentMineCount p.1 p.2)

/-- `self[x, y].set_flag()`. -/
def HexGrid.setFlagAt (g : HexGrid) (p : GamePos) : HexGrid :=
  g.setTile p ((g.getTile p).setFlagTile (g.adjacentMineCount p.1 p.2))

/-- `self[x, y].unset_flag()`. -/
def HexGrid.unsetFlagAt (g : HexGrid) (p : GamePos) : HexGrid :=
  g.setTile p ((g.getTile p).unsetFlagTile (g.adjacentMineCount p.1 p.2))

/-- `HexGrid.total_flag_count`: number of flagged tiles. -/
def HexGrid.totalFlagCount (g : HexGrid) : Nat :=
  ((allValidCoords g.size).filter (fun p => (g.getTile p).flag)).length

/-- `HexGrid.flag_limit_reached`: `total_flag_count() >= mine_count`. -/
def HexGrid.flagLimitReached (g : HexGrid) : Bool :=
  decide ((g.totalFlagCount : Int) ≥ g.mineCount)

/-- The `ValueError` raised by `__init_game` for an invalid mine count,
carrying its message string. -/
structure ConfigError where
  message : String
deriving DecidableEq, Repr

/-- The exact text interpolated into the `ValueError` of `__init_game`. -/
def mineCountErrorMessage (size mineCount : Int) : String :=
  "Invalid mine count! The chosen field size of " ++ toString size ++
    " has " ++ toString (highestPossibleMineCountForSize size + 1) ++
    " tiles, but you chose to generate " ++ toString mineCount ++
    " mines. Note that at least one field must be left blank " ++
    "for the game to be winnable."

/-- The tile rows built by `__init_game` after successful validation. -/
def initGameUnchecked (size mineCount now : Int) : HexGrid :=
  { size := size
    mineCount := mineCount
    startTime := now
    minesHaveBeenGenerated := false
    grid := (List.range (rowCount size).toNat).map (fun y : Nat =>
      (List.range (cellCountInRow size ((y : Nat) : Int)).toNat).map
        (fun _ => blankTile)) }

/-- `HexGrid.__init_game`: validate the mine count, then build the blank grid. -/
def initGame (size mineCount now : Int) : Except ConfigError HexGrid :=
  if mineCount > highestPossibleMineCountForSize size then
    .error ⟨mineCountErrorMessage size mineCount⟩
  else
    .ok (initGameUnchecked size mineCount now)

/-- Python falsiness used by `restart_game`: `if not size: size = self.size`
replaces both `None` and `0` by the previous value. -/
def falsyOr (o : Option Int) (d : Int) : Int :=
  match o with
  | none => d
  | some v => if v = 0 then d else v

/-- `HexGrid.restart_game`: optional arguments default (by falsiness) to the
current values, then the game is reinitialised via `__init_game`. -/
def HexGrid.restartGame (g : HexGrid) (osize omine : Option Int) (now : Int) :
    Except ConfigError HexGrid :=
  initGame (falsyOr osize g.size) (falsyOr omine g.mineCount) now

/-- The first argument of `random.sample` inside `try_generate_mines`: all
valid coordinates with the clicked position removed. -/
def possibleMineLocations (size : Int) (x y : Int) : List GamePos :=
  (allValidCoords size).erase (x, y)

/-- `HexGrid.try_generate_mines`: no-op when mines exist; otherwise turn each
sampled position into a mine, set the generation flag and reset the session
clock.  `sample` stands for the result of
`random.sample(possible_mine_locations, self.mine_count)`. -/
def HexGrid.tryGenerateMines (g : HexGrid) (x y : Int) (sample : List GamePos)
    (now : Int) : HexGrid :=
  if g.minesHaveBeenGenerated then g
  else
    let g' := sample.foldl (fun h p => h.changeIntoMineAt p) g
    { g' with minesHaveBeenGenerated := true, startTime := now }

/-! ## Game-over evaluator and click handlers -/

/-- Calls the engine makes to its injected UI callbacks. -/
inductive GameEvent where
  | redraw : GameEvent
  | alert (title message : String) : GameEvent
deriving DecidableEq, Repr

/-- Which branch of `restart_if_game_is_over` fired (the Python method has no
return value; the status annotates the branch taken for specification). -/
inductive GameStatus where
  | ongoing
  | won
  | lost
deriving DecidableEq, Repr

/-- `number_of_safe_hidden_tiles` inside `restart_if_game_is_over`. -/
def safeHiddenTileCount (g : HexGrid) : Nat :=
  ((allValidCoords g.size).filter
    (fun p => !(g.getTile p).mine && !(g.getTile p).revealed)).length

/-- `revealed_mine_positions` inside `restart_if_game_is_over`. -/
def revealedMinePositions (g : HexGrid) : List GamePos :=
  (allValidCoords g.size).filter
    (fun p => (g.getTile p).mine && (g.getTile p).revealed)

/-- The terminal-state loop `for pos in all_valid_coords: if not has_flag: reveal`. -/
def forceRevealUnflagged (g : HexGrid) : HexGrid :=
  (allValidCoords g.size).foldl
    (fun h p => if (h.getTile p).flag then h else h.revealAt p) g

/-- The duration text of the win alert.  The session clock is modelled in whole
seconds (`Int`), so the fractional-seconds formatting of the Python f-string is
rendered without decimals; `mins` uses floor division exactly as `//`. -/
def winDurationText (delta : Int) : String :=
  let mins := delta / 60
  let secs := delta - 60 * mins
  if mins = 0 then toString secs ++ " seconds"
  else if mins = 1 then "1 minute and " ++ toString secs ++ " seconds"
  else toString mins ++ " minutes and " ++ toString secs ++ " seconds"

/-- `HexGrid.restart_if_game_is_over`: priority order — mines not generated →
ongoing; no safe hidden tile → win; a revealed mine → loss; otherwise ongoing.
On win/loss: force-reveal all unflagged tiles, redraw, alert, restart with the
current size and mine count, redraw. -/
def HexGrid.restartIfGameIsOver (g : HexGrid) (now : Int) :
    Except ConfigError (HexGrid × GameStatus × List GameEvent) :=
  if !g.minesHaveBeenGenerated then .ok (g, .ongoing, [.redraw])
  else if safeHiddenTileCount g = 0 then
    let g1 := forceRevealUnflagged g
    match g1.restartGame none none now with
    | .error e => .error e
    | .ok g2 =>
        .ok (g2, .won,
          [.redraw,
           .alert "Minesweeper"
             ("Congratulations!\nYou won the game in " ++
               winDurationText (now - g.startTime) ++ "."),
           .redraw])
  else if !(revealedMinePositions g).isEmpty then
    let g1 := forceRevealUnflagged g
    match g1.restartGame none none now with
    | .error e => .error e
    | .ok g2 =>
        .ok (g2, .lost, [.redraw, .alert "Minesweeper" "Game over.\nTry again!", .redraw])
  else .ok (g, .ongoing, [.redraw])

/-! ## Flood fill (`HexGrid.reveal_mines_from`) -/

/-- One pass of the `for adj_tile in adjacent_tiles` loop body: reveal the
adjacent tile, and enqueue it when its own adjacent-mine count is zero. -/
def floodAdjStep (gq : HexGrid × List GamePos) (p : GamePos) : HexGrid × List GamePos :=
  let g' := gq.1.revealAt p
  if g'.adjacentMineCount p.1 p.2 = 0 then (g', gq.2 ++ [p]) else (g', gq.2)

/-- The `while queue` loop of `reveal_mines_from`, with explicit fuel: pop the
head; skip it if already completed; otherwise record it, reveal it, then
process its adjacent positions.  Returns `none` only on fuel exhaustion, which
`floodFuel` is proved never to allow. -/
def floodAux : Nat → HexGrid → List GamePos → List GamePos →
    Option (HexGrid × List GamePos)
  | _, g, [], complete => some (g, complete)
  | 0, _, _ :: _, _ => none
  | fuel + 1, g, p :: rest, complete =>
    if p ∈ complete then floodAux fuel g rest complete
    else
      let g1 := g.revealAt p
      let adjs := adjacentPositions g1.size p.1 p.2
      let gq := adjs.foldl floodAdjStep (g1, rest)
      floodAux fuel gq.1 gq.2 (complete ++ [p])

/-- Fuel that always suffices for `floodAux` (each loop iteration either pops a
stale queue entry or completes a fresh valid position, enqueueing at most six
new entries). -/
def floodFuel (g : HexGrid) : Nat := 7 * (allValidCoords g.size).length + 2

/-- `HexGrid.reveal_mines_from`: run the flood-fill loop from `(x, y)`. -/
def HexGrid.revealMinesFrom (g : HexGrid) (x y : Int) : HexGrid :=
  match floodAux (floodFuel g) g [(x, y)] [] with
  | some gc => gc.1
  | none => g

/-! ## Screen/game coordinate mapper -/

/-- Python `int()` applied to a real number: truncation toward zero. -/
noncomputable def pyInt (r : ℝ) : Int := if 0 ≤ r then ⌊r⌋ else -⌊-r⌋

/-- Python 3 `round` applied to a real number: round half to even. -/
noncomputable def pyRound (r : ℝ) : Int :=
  if Int.fract r = 1 / 2 then (if Even ⌊r⌋ then ⌊r⌋ else ⌊r⌋ + 1) else round r

/-- `HexGrid.game_position_to_screen_coordinates` (depends only on the size). -/
noncomputable def gamePositionToScreenCoordinates (size : Int) (x y : Int)
    (apothem : ℝ) : ℝ × Int :=
  let rc := cellCountInRow size y
  let maxRc := highestRowCellCount size
  let screenX : ℝ := apothem * ((maxRc : ℝ) - (rc : ℝ)) + 2 * apothem * (x : ℝ) + apothem
  let distTileCenterToVertex : ℝ := 2 * apothem / Real.sqrt 3
  let verticalTileDistance : ℝ := 1.5 * distTileCenterToVertex
  (screenX, pyInt ((y : ℝ) * verticalTileDistance + distTileCenterToVertex))

/-- `HexGrid.screen_coordinates_to_game_position` (depends only on the size). -/
noncomputable def screenCoordinatesToGamePosition (size : Int)
    (screenX screenY : ℝ) (apothem : ℝ) : Int × Int :=
  let distTileCenterToVertex : ℝ := 2 * apothem / Real.sqrt 3
  let verticalTileDistance : ℝ := 1.5 * distTileCenterToVertex
  let fieldY := pyRound ((screenY - distTileCenterToVertex) / verticalTileDistance)
  let rc := cellCountInRow size fieldY
  let maxRc := highestRowCellCount size
  let fx : ℝ := screenX - apothem - apothem * ((maxRc : ℝ) - (rc : ℝ))
  (pyRound (fx / apothem / 2), fieldY)

/-! ## Click handlers -/

/-- The flag-limit alert text of `secondary_click`. -/
def flagLimitMessage (mineCount : Int) : String :=
  "You\x27ve reached the flag limit of " ++ toString mineCount ++
    ".\nThis means that at least one of your flags is incorrectly placed.\n" ++
    "Removing any incorrect flags and revealing those tiles will " ++
    "allow you to win the game."

/-- `HexGrid.primary_click` after the screen-to-game mapping: validate, refuse
flagged tiles, lazily generate mines, reveal, then either stop at a numbered
tile or flood fill, and finally run the game-over evaluator. -/
def HexGrid.primaryClickAt (g : HexGrid) (x y : Int) (sample : List GamePos)
    (now : Int) : Except ConfigError (HexGrid × List GameEvent) :=
  if !isPositionValid g.size x y then .ok (g, [])
  else if (g.getTile (x, y)).flag then .ok (g, [])
  else
    let g1 := g.tryGenerateMines x y sample now
    let g2 := g1.revealAt (x, y)
    if g2.adjacentMineCount x y > 0 then
      match g2.restartIfGameIsOver now with
      | .error e => .error e
      | .ok (g3, _, ev) => .ok (g3, .redraw :: ev)
    else
      let g3 := g2.revealMinesFrom x y
      match g3.restartIfGameIsOver now with
      | .error e => .error e
      | .ok (g4, _, ev) => .ok (g4, ev)

/-- `HexGrid.primary_click` including the screen-to-game mapping. -/
noncomputable def HexGrid.primaryClick (g : HexGrid) (screenX screenY : ℝ)
    (apothem : ℝ) (sample : List GamePos) (now : Int) :
    Except ConfigError (HexGrid × List GameEvent) :=
  let xy := screenCoordinatesToGamePosition g.size screenX screenY apothem
  g.primaryClickAt xy.1 xy.2 sample now

/-- `HexGrid.secondary_click` after the screen-to-game mapping: validate, check
the toggle permission, then either refuse a new flag at the flag limit (alert,
no state change), place a flag, or remove one; a successful toggle runs the
game-over evaluator. -/
def HexGrid.secondaryClickAt (g : HexGrid) (x y : Int) (now : Int) :
    Except ConfigError (HexGrid × List GameEvent) :=
  if !isPositionValid g.size x y then .ok (g, [])
  else if !g.canToggleFlagAt (x, y) then .ok (g, [])
  else if !(g.getTile (x, y)).flag then
    if g.flagLimitReached then
      .ok (g, [.alert "Minesweeper" (flagLimitMessage g.mineCount)])
    else
      let g1 := g.setFlagAt (x, y)
      match g1.restartIfGameIsOver now with
      | .error e => .error e
      | .ok (g2, _, ev) => .ok (g2, ev)
  else
    let g1 := g.unsetFlagAt (x, y)
    match g1.restartIfGameIsOver now with
    | .error e => .error e
    | .ok (g2, _, ev) => .ok (g2, ev)

/-- `HexGrid.secondary_click` including the screen-to-game mapping. -/
noncomputable def HexGrid.secondaryClick (g : HexGrid) (screenX screenY : ℝ)
    (apothem : ℝ) (now : Int) : Except ConfigError (HexGrid × List GameEvent) :=
  let xy := screenCoordinatesToGamePosition g.size screenX screenY apothem
  g.secondaryClickAt xy.1 xy.2 now

/-! ## Python subscripting semantics of `HexGrid.__getitem__` -/

/-- Python list subscription `l[i]`: nonnegative indices index from the front,
negative indices not below `-len(l)` wrap around, anything else raises
`IndexError` (modelled as `none`). -/
def pyListGet (l : List Tile) (i : Int) : Option Tile :=
  if 0 ≤ i then l.get? i.toNat
  else if 0 ≤ (l.length : Int) + i then l.get? ((l.length : Int) + i).toNat
  else none

/-- Outer-list variant of `pyListGet` for the row list. -/
def pyRowGet (l : List (List Tile)) (i : Int) : Option (List Tile) :=
  if 0 ≤ i then l.get? i.toNat
  else if 0 ≤ (l.length : Int) + i then l.get? ((l.length : Int) + i).toNat
  else none

/-- `HexGrid.__getitem__`: `self.grid[y][x]` with Python subscripting. -/
def HexGrid.pyGetItem (g : HexGrid) (p : GamePos) : Option Tile :=
  (pyRowGet g.grid p.2).bind (fun row => pyListGet row p.1)

/-! ## Well-formedness of the jagged grid -/

/-- The shape every constructed grid has: one row per `y` of the correct
jagged length. -/
def HexGrid.WF (g : HexGrid) : Prop :=
  g.grid.length = (rowCount g.size).toNat ∧
  ∀ i ∈ List.range g.grid.length,
    (g.grid.getD i []).length = (cellCountInRow g.size (i : Int)).toNat

instance (g : HexGrid) : Decidable g.WF := by
  unfold HexGrid.WF
  exact inferInstance

/-! ## Reachable states and flood-fill regions -/

/-- The per-tile invariant of the engine: no tile is simultaneously flagged
and revealed. -/
def NoFlagRevealed (g : HexGrid) : Prop :=
  ∀ row ∈ g.grid, ∀ t ∈ row, ¬(t.flag = true ∧ t.revealed = true)

instance (g : HexGrid) : Decidable (NoFlagRevealed g) := by
  unfold NoFlagRevealed
  exact inferInstance

/-- The flag-bookkeeping invariant of the engine: never more flags than the
(nonnegative) mine count. -/
def FlagInv (g : HexGrid) : Prop :=
  (g.totalFlagCount : Int) ≤ g.mineCount ∧ 0 ≤ g.mineCount

instance (g : HexGrid) : Decidable (FlagInv g) := by
  unfold FlagInv
  exact inferInstance

/-- Grid states reachable from construction through the engine operations.
Construction and explicit restarts are restricted to the documented domain of
a nonnegative requested mine count (the UI slider only produces such values);
all other arguments — click positions, sampled mine lists, timestamps — are
arbitrary. -/
inductive Reachable : HexGrid → Prop where
  | init (size mineCount now : Int) (g : HexGrid) (hm : 0 ≤ mineCount)
      (h : initGame size mineCount now = .ok g) : Reachable g
  | restart (g : HexGrid) (osize omine : Option Int) (now : Int) (g' : HexGrid)
      (hm : 0 ≤ falsyOr omine g.mineCount) (hg : Reachable g)
      (h : g.restartGame osize omine now = .ok g') : Reachable g'
  | generate (g : HexGrid) (x y : Int) (sample : List GamePos) (now : Int)
      (hg : Reachable g) : Reachable (g.tryGenerateMines x y sample now)
  | flood (g : HexGrid) (x y : Int) (hg : Reachable g) :
      Reachable (g.revealMinesFrom x y)
  | evaluator (g : HexGrid) (now : Int) (g' : HexGrid) (st : GameStatus)
      (ev : List GameEvent) (hg : Reachable g)
      (h : g.restartIfGameIsOver now = .ok (g', st, ev)) : Reachable g'
  | primary (g : HexGrid) (x y : Int) (sample : List GamePos) (now : Int)
      (g' : HexGrid) (ev : List GameEvent) (hg : Reachable g)
      (h : g.primaryClickAt x y sample now = .ok (g', ev)) : Reachable g'
  | secondary (g : HexGrid) (x y : Int) (now : Int) (g' : HexGrid)
      (ev : List GameEvent) (hg : Reachable g)
      (h : g.secondaryClickAt x y now = .ok (g', ev)) : Reachable g'

/-- The connected region the flood fill expands: positions reachable from the
origin by stepping to valid adjacent positions whose adjacent-mine count is
zero.  (Under the hypotheses of the flood-fill theorem the origin itself is
valid and has count zero, so this is the zero-count connected component.) -/
inductive ZeroReach (g : HexGrid) (p0 : GamePos) : GamePos → Prop where
  | base : ZeroReach g p0 p0
  | step {p q : GamePos} (hp : ZeroReach g p0 p)
      (hadj : q ∈ adjacentPositions g.size p.1 p.2)
      (hz : g.adjacentMineCount q.1 q.2 = 0) : ZeroReach g p0 q

/-- The set of positions the flood fill calls `reveal()` on: the zero-count
region together with every position adjacent to it (the border ring). -/
def RevealTarget (g : HexGrid) (p0 q : GamePos) : Prop :=
  ZeroReach g p0 q ∨ ∃ r, ZeroReach g p0 r ∧ q ∈ adjacentPositions g.size r.1 r.2

/-! ### Concrete grids used to instantiate the theorems -/

/-- A fresh size-2 grid with one mine to place. -/
def wGrid21 : HexGrid := initGameUnchecked 2 1 0

/-- The same grid marked as generated (no mine was placed, which is a legal
sample of size 0 only for mine count 0; here it simply gives a concrete grid
with `minesHaveBeenGenerated = true`). -/
def wGridGen : HexGrid := { initGameUnchecked 2 1 0 with minesHaveBeenGenerated := true }

/-- A fresh size-2 grid with one flag placed at the origin. -/
def wGridFlag : HexGrid := (initGameUnchecked 2 1 0).setFlagAt (0, 0)

/-- A fresh size-2 grid with zero mines (its flag limit is already reached). -/
def wGridZero : HexGrid := initGameUnchecked 2 0 0

/-- A fresh size-2 grid whose bottom-left tile was turned into a mine. -/
def c9Grid : HexGrid := (initGameUnchecked 2 1 0).changeIntoMineAt (0, 2)

/-! ## Helper lemmas: list slots, valid coordinates, preservation -/

lemma listGetD_set_ne {α : Type} {l : List α} {i j : Nat} (b d : α) (h : i ≠ j) :
    (l.set i b).getD j d = l.getD j d := by
  rw [List.getD_eq_getElem?_getD, List.getD_eq_getElem?_getD, List.getElem?_set_ne h]

lemma listGetD_set_self {α : Type} {l : List α} {i : Nat} (b d : α)
    (h : i < l.length) : (l.set i b).getD i d = b := by
  rw [List.getD_eq_getElem?_getD, List.getElem?_set_self h, Option.getD_some]

lemma listGetD_set_same {α : Type} {l : List α} {i : Nat} (b d : α) :
    (l.set i b).getD i d = if i < l.length then b else l.getD i d := by
  by_cases h : i < l.length
  · simp [listGetD_set_self, h]
  · simp only [if_neg h]
    rw [List.set_eq_of_length_le (Nat.le_of_not_lt h)]

/-- `getTile` depends only on the slot indices. -/
lemma getTile_congr_slots (g : HexGrid) {p q : GamePos}
    (hy : p.2.toNat = q.2.toNat) (hx : p.1.toNat = q.1.toNat) :
    g.getTile p = g.getTile q := by
  simp [HexGrid.getTile, hy, hx]

/-- Jagged-array slot description of a write into `rows[j][i]`. -/
lemma grid2_set_getD (rows : List (List Tile)) (j i j' i' : Nat) (t : Tile) :
    ((rows.set j ((rows.getD j []).set i t)).getD j' []).getD i' blankTile =
      if j = j' ∧ i = i' ∧ j < rows.length ∧ i < (rows.getD j []).length then t
      else (rows.getD j' []).getD i' blankTile := by
  by_cases hj : j = j'
  · subst hj
    rw [listGetD_set_same]
    by_cases hjr : j < rows.length
    · rw [if_pos hjr]
      by_cases hi : i = i'
      · subst hi
        rw [listGetD_set_same]
        by_cases hir : i < (rows.getD j []).length
        · simp [hjr, hir]
        · simp [hjr, hir]
      · rw [listGetD_set_ne _ _ hi]
        simp [hi]
    · rw [if_neg hjr]
      simp [hjr]
  · rw [listGetD_set_ne _ _ hj]
    simp [hj]

/-- Master description of a tile write: positions with a different slot are
untouched; the written slot holds the new tile when it is in range. -/
lemma getTile_setTile (g : HexGrid) (p q : GamePos) (t : Tile) :
    (g.setTile p t).getTile q =
      if p.2.toNat = q.2.toNat ∧ p.1.toNat = q.1.toNat ∧
          p.2.toNat < g.grid.length ∧
          p.1.toNat < (g.grid.getD p.2.toNat []).length then t
      else g.getTile q :=
  grid2_set_getD g.grid p.2.toNat p.1.toNat q.2.toNat q.1.toNat t

@[simp] lemma size_setTile (g : HexGrid) (p : GamePos) (t : Tile) :
    (g.setTile p t).size = g.size := rfl

@[simp] lemma mineCount_setTile (g : HexGrid) (p : GamePos) (t : Tile) :
    (g.setTile p t).mineCount = g.mineCount := rfl

@[simp] lemma startTime_setTile (g : HexGrid) (p : GamePos) (t : Tile) :
    (g.setTile p t).startTime = g.startTime := rfl

@[simp] lemma minesGen_setTile (g : HexGrid) (p : GamePos) (t : Tile) :
    (g.setTile p t).minesHaveBeenGenerated = g.minesHaveBeenGenerated := rfl

@[simp] lemma gridLength_setTile (g : HexGrid) (p : GamePos) (t : Tile) :
    (g.setTile p t).grid.length = g.grid.length := by
  simp [HexGrid.setTile]

lemma wf_setTile {g : HexGrid} (p : GamePos) (t : Tile) (h : g.WF) :
    (g.setTile p t).WF := by
  obtain ⟨h1, h2⟩ := h
  constructor
  · simpa using h1
  · intro i hi
    simp only [HexGrid.setTile, List.length_set] at hi ⊢
    have h2i := h2 i hi
    by_cases hy : p.2.toNat = i
    · subst hy
      rw [listGetD_set_same]
      by_cases hr : p.2.toNat < g.grid.length
      · rw [if_pos hr, List.length_set]
        exact h2i
      · rw [if_neg hr]
        exact h2i
    · rw [listGetD_set_ne _ _ hy]
      exact h2i

/-- Unfolded form of position validity. -/
lemma isPositionValid_iff {size x y : Int} :
    isPositionValid size x y = true ↔
      0 ≤ y ∧ y < rowCount size ∧ 0 ≤ x ∧ x < cellCountInRow size y := by
  simp [isPositionValid, isYValid, isXValid, and_assoc]

/-- Membership in `all_valid_coords` is exactly position validity. -/
lemma mem_allValidCoords {size : Int} {p : GamePos} :
    p ∈ allValidCoords size ↔ isPositionValid size p.1 p.2 = true := by
  constructor
  · intro h
    rw [allValidCoords, List.mem_flatMap] at h
    obtain ⟨yn, hyn, hmem⟩ := h
    rw [List.mem_map] at hmem
    obtain ⟨xn, hxn, rfl⟩ := hmem
    rw [List.mem_range] at hyn hxn
    rw [isPositionValid_iff]
    exact ⟨Int.natCast_nonneg yn, Int.lt_toNat.mp hyn,
      Int.natCast_nonneg xn, Int.lt_toNat.mp hxn⟩
  · intro h
    obtain ⟨hy0, hyr, hx0, hxr⟩ := isPositionValid_iff.mp h
    rw [allValidCoords, List.mem_flatMap]
    refine ⟨p.2.toNat, ?_, ?_⟩
    · rw [List.mem_range, Int.lt_toNat, Int.toNat_of_nonneg hy0]
      exact hyr
    · rw [List.mem_map]
      refine ⟨p.1.toNat, ?_, ?_⟩
      · rw [List.mem_range, Int.lt_toNat, Int.toNat_of_nonneg hx0,
          Int.toNat_of_nonneg hy0]
        exact hxr
      · rw [Int.toNat_of_nonneg hy0, Int.toNat_of_nonneg hx0]

lemma allValidCoords_nodup (size : Int) : (allValidCoords size).Nodup := by
  unfold allValidCoords
  rw [List.nodup_flatMap]
  constructor
  · intro yn _
    refine (List.nodup_range _).map ?_
    intro a b h
    have h1 : ((a : Int)) = ((b : Int)) := congrArg Prod.fst h
    exact_mod_cast h1
  · refine (List.nodup_range _).pairwise_of_forall_ne ?_
    intro a _ b _ hab
    simp only [Function.onFun]
    intro q hqa hqb
    rw [List.mem_map] at hqa hqb
    obtain ⟨xa, -, ha⟩ := hqa
    obtain ⟨xb, -, hb⟩ := hqb
    have h1 : ((a : Int)) = q.2 := congrArg Prod.snd ha
    have h2 : ((b : Int)) = q.2 := congrArg Prod.snd hb
    have hc : (a : Int) = (b : Int) := h1.trans h2.symm
    exact hab (by exact_mod_cast hc)

/-- Two distinct valid positions occupy distinct slots. -/
lemma slots_inj {size : Int} {p q : GamePos}
    (hp : isPositionValid size p.1 p.2 = true)
    (hq : isPositionValid size q.1 q.2 = true)
    (hy : p.2.toNat = q.2.toNat) (hx : p.1.toNat = q.1.toNat) : p = q := by
  obtain ⟨hpy, -, hpx, -⟩ := isPositionValid_iff.mp hp
  obtain ⟨hqy, -, hqx, -⟩ := isPositionValid_iff.mp hq
  have h2 : p.2 = q.2 := by
    rw [← Int.toNat_of_nonneg hpy, ← Int.toNat_of_nonneg hqy]
    exact_mod_cast hy
  have h1 : p.1 = q.1 := by
    rw [← Int.toNat_of_nonneg hpx, ← Int.toNat_of_nonneg hqx]
    exact_mod_cast hx
  exact Prod.ext h1 h2

/-- On a well-formed grid, writing at a valid position stores the tile. -/
lemma getTile_setTile_self {g : HexGrid} {p : GamePos} (t : Tile) (hwf : g.WF)
    (hp : isPositionValid g.size p.1 p.2 = true) :
    (g.setTile p t).getTile p = t := by
  obtain ⟨hpy, hyr, hpx, hxr⟩ := isPositionValid_iff.mp hp
  obtain ⟨hlen, hrows⟩ := hwf
  have hylt : p.2.toNat < g.grid.length := by
    rw [hlen]
    rw [Int.lt_toNat, Int.toNat_of_nonneg hpy]
    exact hyr
  have hxlt : p.1.toNat < (g.grid.getD p.2.toNat []).length := by
    rw [hrows p.2.toNat (List.mem_range.mpr hylt)]
    rw [Int.lt_toNat, Int.toNat_of_nonneg hpx, Int.toNat_of_nonneg hpy]
    exact hxr
  rw [getTile_setTile, if_pos]
  exact ⟨rfl, rfl, hylt, hxlt⟩

/-- Writing somewhere else leaves a tile unchanged (both positions valid). -/
lemma getTile_setTile_ne {g : HexGrid} {p q : GamePos} (t : Tile)
    (hp : isPositionValid g.size p.1 p.2 = true)
    (hq : isPositionValid g.size q.1 q.2 = true) (hne : p ≠ q) :
    (g.setTile p t).getTile q = g.getTile q := by
  rw [getTile_setTile]
  by_cases hy : p.2.toNat = q.2.toNat
  · by_cases hx : p.1.toNat = q.1.toNat
    · exact absurd (slots_inj hp hq hy hx) hne
    · simp [hy, hx]
  · simp [hy]

@[simp] lemma Tile.mine_reveal (t : Tile) : t.reveal.mine = t.mine := by
  unfold Tile.reveal
  split <;> rfl

@[simp] lemma Tile.flag_reveal (t : Tile) : t.reveal.flag = t.flag := by
  unfold Tile.reveal
  split <;> rfl

@[simp] lemma Tile.revealedChangeIntoMine (t : Tile) :
    t.changeIntoMine.revealed = t.revealed := rfl

@[simp] lemma Tile.flagChangeIntoMine (t : Tile) :
    t.changeIntoMine.flag = t.flag := rfl

@[simp] lemma Tile.mineSetFlagTile (c : Int) (t : Tile) :
    (t.setFlagTile c).mine = t.mine := by
  unfold Tile.setFlagTile
  split
  · rfl
  · split <;> rfl

@[simp] lemma Tile.revealedSetFlagTile (c : Int) (t : Tile) :
    (t.setFlagTile c).revealed = t.revealed := by
  unfold Tile.setFlagTile
  split
  · rfl
  · split <;> rfl

@[simp] lemma Tile.mineUnsetFlagTile (c : Int) (t : Tile) :
    (t.unsetFlagTile c).mine = t.mine := by
  unfold Tile.unsetFlagTile
  split
  · rfl
  · split <;> rfl

@[simp] lemma Tile.revealedUnsetFlagTile (c : Int) (t : Tile) :
    (t.unsetFlagTile c).revealed = t.revealed := by
  unfold Tile.unsetFlagTile
  split
  · rfl
  · split <;> rfl

/-- Writing `f (getTile p)` at `p` preserves any tile field that `f` preserves,
at every position (aliased or not). -/
lemma getTile_setTile_field (g : HexGrid) (p : GamePos) (f : Tile → Tile)
    (fld : Tile → Bool) (hf : ∀ t, fld (f t) = fld t) (q : GamePos) :
    fld ((g.setTile p (f (g.getTile p))).getTile q) = fld (g.getTile q) := by
  rw [getTile_setTile]
  split
  · next h =>
    rw [getTile_congr_slots g h.1 h.2.1, hf]
  · rfl

lemma mine_revealAt (g : HexGrid) (p q : GamePos) :
    ((g.revealAt p).getTile q).mine = (g.getTile q).mine :=
  getTile_setTile_field g p Tile.reveal Tile.mine (by simp) q

lemma flag_revealAt (g : HexGrid) (p q : GamePos) :
    ((g.revealAt p).getTile q).flag = (g.getTile q).flag :=
  getTile_setTile_field g p Tile.reveal Tile.flag (by simp) q

lemma revealed_changeIntoMineAt (g : HexGrid) (p q : GamePos) :
    ((g.changeIntoMineAt p).getTile q).revealed = (g.getTile q).revealed :=
  getTile_setTile_field g p Tile.changeIntoMine Tile.revealed (by simp) q

lemma flag_changeIntoMineAt (g : HexGrid) (p q : GamePos) :
    ((g.changeIntoMineAt p).getTile q).flag = (g.getTile q).flag :=
  getTile_setTile_field g p Tile.changeIntoMine Tile.flag (by simp) q

lemma mine_setFlagAt (g : HexGrid) (p q : GamePos) :
    ((g.setFlagAt p).getTile q).mine = (g.getTile q).mine :=
  getTile_setTile_field g p (Tile.setFlagTile (g.adjacentMineCount p.1 p.2))
    Tile.mine (by simp) q

lemma revealed_setFlagAt (g : HexGrid) (p q : GamePos) :
    ((g.setFlagAt p).getTile q).revealed = (g.getTile q).revealed :=
  getTile_setTile_field g p (Tile.setFlagTile (g.adjacentMineCount p.1 p.2))
    Tile.revealed (by simp) q

lemma mine_unsetFlagAt (g : HexGrid) (p q : GamePos) :
    ((g.unsetFlagAt p).getTile q).mine = (g.getTile q).mine :=
  getTile_setTile_field g p (Tile.unsetFlagTile (g.adjacentMineCount p.1 p.2))
    Tile.mine (by simp) q

lemma revealed_unsetFlagAt (g : HexGrid) (p q : GamePos) :
    ((g.unsetFlagAt p).getTile q).revealed = (g.getTile q).revealed :=
  getTile_setTile_field g p (Tile.unsetFlagTile (g.adjacentMineCount p.1 p.2))
    Tile.revealed (by simp) q

/-- Two grids of equal size with pointwise equal mine fields have equal
adjacent-mine counts. -/
lemma adjacentMineCount_congr {g g' : HexGrid} (hs : g'.size = g.size)
    (hm : ∀ q, (g'.getTile q).mine = (g.getTile q).mine) (x y : Int) :
    g'.adjacentMineCount x y = g.adjacentMineCount x y := by
  unfold HexGrid.adjacentMineCount
  rw [hs]
  congr 2
  apply List.filter_congr
  intro p _
  rw [hm]

lemma totalFlagCount_congr {g g' : HexGrid} (hs : g'.size = g.size)
    (hm : ∀ q, (g'.getTile q).flag = (g.getTile q).flag) :
    g'.totalFlagCount = g.totalFlagCount := by
  unfold HexGrid.totalFlagCount
  rw [hs]
  congr 1
  apply List.filter_congr
  intro p _
  rw [hm]

lemma safeHiddenTileCount_congr {g g' : HexGrid} (hs : g'.size = g.size)
    (hm : ∀ q, (g'.getTile q).mine = (g.getTile q).mine)
    (hr : ∀ q, (g'.getTile q).revealed = (g.getTile q).revealed) :
    safeHiddenTileCount g' = safeHiddenTileCount g := by
  unfold safeHiddenTileCount
  rw [hs]
  congr 1
  apply List.filter_congr
  intro p _
  rw [hm, hr]

lemma revealedMinePositions_congr {g g' : HexGrid} (hs : g'.size = g.size)
    (hm : ∀ q, (g'.getTile q).mine = (g.getTile q).mine)
    (hr : ∀ q, (g'.getTile q).revealed = (g.getTile q).revealed) :
    revealedMinePositions g' = revealedMinePositions g := by
  unfold revealedMinePositions
  rw [hs]
  apply List.filter_congr
  intro p _
  rw [hm, hr]

/-! ## C10: restart treats an argument of 0 like an omitted argument -/

/-- C10: `restart_game` applies its defaults by falsiness, so an explicit `0`
for either parameter behaves exactly like an omitted parameter — `restart(0, m)`
keeps the previous size, `restart(s, 0)` keeps the previous mine count — and
hence a successful restart of a grid with a non-zero mine count never yields a
grid with a zero mine count. -/
theorem restartGame_falsy_defaults :
    (∀ (g : HexGrid) (m : Option Int) (now : Int),
        g.restartGame (some 0) m now = g.restartGame none m now) ∧
    (∀ (g : HexGrid) (s : Option Int) (now : Int),
        g.restartGame s (some 0) now = g.restartGame s none now) ∧
    (∀ (g g' : HexGrid) (os om : Option Int) (now : Int),
        g.restartGame os om now = .ok g' → g.mineCount ≠ 0 → g'.mineCount ≠ 0) := by
  refine ⟨fun g m now => rfl, fun g s now => rfl, ?_⟩
  intro g g' os om now h hm
  unfold HexGrid.restartGame initGame at h
  split at h
  · exact absurd h (by simp)
  · have hg' : g' = initGameUnchecked (falsyOr os g.size) (falsyOr om g.mineCount) now := by
      exact (Except.ok.injEq .. ▸ h).symm
    subst hg'
    show falsyOr om g.mineCount ≠ 0
    match om with
    | none => exact hm
    | some v =>
      by_cases hv : v = 0
      · subst hv
        simpa [falsyOr] using hm
      · rw [show falsyOr (some v) g.mineCount = v from by simp [falsyOr, hv]]
        exact hv

/-- Witness for C10 at a concrete grid: restarting the size-2, one-mine grid
keeps a non-zero mine count. -/
theorem restartGame_falsy_defaults_witness :
    wGrid21.restartGame none none 5 = .ok (initGameUnchecked 2 1 5) ∧
    wGrid21.mineCount ≠ 0 ∧ (initGameUnchecked 2 1 5).mineCount ≠ 0 :=
  ⟨by rfl, by decide,
    restartGame_falsy_defaults.2.2 wGrid21 (initGameUnchecked 2 1 5) none none 5
      (by rfl) (by decide)⟩

/-! ## C7: the color-diffing toggle heuristic vs the revealed-tile rule -/

/-- C7 (corrected): on every tile state that is not simultaneously flagged and
revealed — the only tile states the engine can reach — the color-diffing
heuristic `can_toggle_flag` agrees with the render-independent rule "toggling
is allowed iff the tile is not revealed", for every adjacent-mine count. -/
theorem canToggleFlag_iff_not_revealed (adjCount : Int) (t : Tile)
    (h : ¬(t.flag = true ∧ t.revealed = true)) :
    t.canToggleFlag adjCount = !t.revealed := by
  obtain ⟨r, m, f⟩ := t
  cases r
  · cases f
    · cases m <;> rfl
    · rfl
  · cases f
    · cases m
      · by_cases hc : adjCount > 0 <;>
          simp [Tile.canToggleFlag, Tile.color, hc]
      · rfl
    · exact absurd ⟨rfl, rfl⟩ h

/-- Witness for C7: a blank tile is unrevealed and the heuristic allows
toggling its flag. -/
theorem canToggleFlag_iff_not_revealed_witness :
    ¬(blankTile.flag = true ∧ blankTile.revealed = true) ∧
    blankTile.canToggleFlag 0 = !blankTile.revealed :=
  ⟨by decide, canToggleFlag_iff_not_revealed 0 blankTile (by decide)⟩

/-- Counterexample to C7 as stated: on the (unreachable) tile state that is
both revealed and flagged, the heuristic allows the toggle even though the
tile is revealed, so the heuristic is not equivalent to the rule on *every*
tile. -/
theorem canToggleFlag_heuristic_cex :
    (Tile.mk true false true).revealed = true ∧
    (Tile.mk true false true).canToggleFlag 0 = true ∧
    (Tile.mk true false true).canToggleFlag 0 ≠ !(Tile.mk true false true).revealed := by
  decide

/-! ## C9: `__getitem__` follows Python subscript semantics, not bounds checks -/

/-- C9 (corrected): the tile accessor `hexgrid[x, y]` is plain Python list
subscription `self.grid[y][x]`, not a bounds-checked accessor: at every valid
position it returns the tile at row `y`, column `x`, but negative indices
within one list length wrap around to the end (so some invalid positions alias
valid tiles), and only indices beyond the wrap range raise `IndexError`. -/
theorem pyGetItem_semantics :
    (∀ (g : HexGrid) (p : GamePos), g.WF → isPositionValid g.size p.1 p.2 = true →
        g.pyGetItem p = some (g.getTile p)) ∧
    (∀ (l : List Tile) (i : Int), -(l.length : Int) ≤ i → i < 0 →
        pyListGet l i = pyListGet l (i + (l.length : Int))) ∧
    (∀ (g : HexGrid) (x y : Int), g.WF → -(rowCount g.size) ≤ y → y < 0 →
        g.pyGetItem (x, y) = g.pyGetItem (x, y + rowCount g.size)) := by
  have hwrapT : ∀ (l : List Tile) (i : Int), -(l.length : Int) ≤ i → i < 0 →
      pyListGet l i = pyListGet l (i + (l.length : Int)) := by
    intro l i h1 h2
    unfold pyListGet
    rw [if_neg (by omega), if_pos (by omega), if_pos (by omega)]
    congr 1
    omega
  have hwrapR : ∀ (l : List (List Tile)) (i : Int), -(l.length : Int) ≤ i → i < 0 →
      pyRowGet l i = pyRowGet l (i + (l.length : Int)) := by
    intro l i h1 h2
    unfold pyRowGet
    rw [if_neg (by omega), if_pos (by omega), if_pos (by omega)]
    congr 1
    omega
  refine ⟨?_, hwrapT, ?_⟩
  · intro g p hwf hv
    obtain ⟨hy0, hyr, hx0, hxr⟩ := isPositionValid_iff.mp hv
    obtain ⟨hlen, hrows⟩ := hwf
    have hylt : p.2.toNat < g.grid.length := by
      rw [hlen]
      rw [Int.lt_toNat, Int.toNat_of_nonneg hy0]
      exact hyr
    have hxlt : p.1.toNat < (g.grid.getD p.2.toNat []).length := by
      rw [hrows p.2.toNat (List.mem_range.mpr hylt)]
      rw [Int.lt_toNat, Int.toNat_of_nonneg hx0, Int.toNat_of_nonneg hy0]
      exact hxr
    unfold HexGrid.pyGetItem pyRowGet pyListGet HexGrid.getTile
    rw [if_pos hy0]
    rw [List.get?_eq_getElem?, List.getElem?_eq_getElem hylt]
    simp only [Option.some_bind]
    rw [if_pos hx0]
    have hgetD : g.grid.getD p.2.toNat [] = g.grid[p.2.toNat] := by
      rw [List.getD_eq_getElem?_getD, List.getElem?_eq_getElem hylt]
      rfl
    have hxlt' : p.1.toNat < (g.grid[p.2.toNat]).length := hgetD ▸ hxlt
    rw [hgetD]
    rw [List.get?_eq_getElem?, List.getElem?_eq_getElem hxlt']
    rw [List.getD_eq_getElem?_getD, List.getElem?_eq_getElem hxlt']
    rfl
  · intro g x y hwf h1 h2
    have hrc : 0 < rowCount g.size := by omega
    have hlen : (g.grid.length : Int) = rowCount g.size := by
      rw [hwf.1]
      exact Int.toNat_of_nonneg (le_of_lt hrc)
    unfold HexGrid.pyGetItem
    rw [hwrapR g.grid y (by omega) h2, hlen]

/-- Witness for C9 at a concrete grid: valid access returns the stored tile. -/
theorem pyGetItem_semantics_witness :
    c9Grid.WF ∧ isPositionValid c9Grid.size 0 2 = true ∧
    c9Grid.pyGetItem (0, 2) = some (c9Grid.getTile (0, 2)) :=
  ⟨by decide, by decide, pyGetItem_semantics.1 c9Grid (0, 2) (by decide) (by decide)⟩

/-- Counterexample to C9 as stated: `(0, -1)` is invalid, yet subscription
returns a tile of the grid — the mine stored at the valid position `(0, 2)` —
rather than failing. -/
theorem pyGetItem_neg_cex :
    isPositionValid c9Grid.size 0 (-1) = false ∧
    c9Grid.pyGetItem (0, -1) = some ⟨false, true, false⟩ ∧
    c9Grid.pyGetItem (0, 2) = some ⟨false, true, false⟩ ∧
    isPositionValid c9Grid.size 0 2 = true := by
  decide

/-! ## C5: constructor validation and the ConfigError message -/

lemma isInfix_append_left {l l₁ : List Char} (l₂ : List Char) (h : l <:+: l₁) :
    l <:+: l₁ ++ l₂ := by
  obtain ⟨s, t, rfl⟩ := h
  exact ⟨s, t ++ l₂, by simp [List.append_assoc]⟩

lemma isInfix_append_right {l l₂ : List Char} (l₁ : List Char) (h : l <:+: l₂) :
    l <:+: l₁ ++ l₂ := by
  obtain ⟨s, t, rfl⟩ := h
  exact ⟨l₁ ++ s, t, by simp [List.append_assoc]⟩

/-- C5 (corrected): `__init_game` (hence construction and restart) fails, with
the `ValueError`, exactly when the requested mine count exceeds
`highestPossibleMineCount(size) = 3·size² − 3·size + 1 − 1`; the error message
names the size, the requested mine count and the *total tile count*
(`maxAllowed + 1`, together with the note that one field must stay blank) —
not the maximum allowed count itself; and on success the grid has
`2·size − 1` rows, row `y` holding `size + min(y, 2·size−2−y)` blank tiles. -/
theorem initGame_validation :
    (∀ size m now : Int,
        (∃ e, initGame size m now = .error e) ↔
          m > highestPossibleMineCountForSize size) ∧
    (∀ size m now : Int, m > highestPossibleMineCountForSize size →
        initGame size m now = .error ⟨mineCountErrorMessage size m⟩ ∧
        (toString size).data <:+: (mineCountErrorMessage size m).data ∧
        (toString m).data <:+: (mineCountErrorMessage size m).data ∧
        (toString (highestPossibleMineCountForSize size + 1)).data <:+:
          (mineCountErrorMessage size m).data) ∧
    (∀ size m now : Int, ¬(m > highestPossibleMineCountForSize size) →
        initGame size m now = .ok (initGameUnchecked size m now) ∧
        (initGameUnchecked size m now).grid.length = (2 * size - 1).toNat ∧
        (∀ i ∈ List.range (initGameUnchecked size m now).grid.length,
          ((initGameUnchecked size m now).grid.getD i []).length =
            (size + min (i : Int) (2 * size - 2 - (i : Int))).toNat) ∧
        (∀ row ∈ (initGameUnchecked size m now).grid, ∀ t ∈ row, t = blankTile)) := by
  refine ⟨?_, ?_, ?_⟩
  · intro size m now
    constructor
    · rintro ⟨e, he⟩
      unfold initGame at he
      by_contra hgt
      rw [if_neg hgt] at he
      exact absurd he (by simp)
    · intro hgt
      exact ⟨⟨mineCountErrorMessage size m⟩, by unfold initGame; rw [if_pos hgt]⟩
  · intro size m now hgt
    refine ⟨by unfold initGame; rw [if_pos hgt], ?_, ?_, ?_⟩
    · unfold mineCountErrorMessage
      simp only [String.data_append, List.append_assoc]
      apply isInfix_append_right
      apply isInfix_append_left
      exact List.infix_refl _
    · unfold mineCountErrorMessage
      simp only [String.data_append, List.append_assoc]
      apply isInfix_append_right
      apply isInfix_append_right
      apply isInfix_append_right
      apply isInfix_append_right
      apply isInfix_append_right
      apply isInfix_append_left
      exact List.infix_refl _
    · unfold mineCountErrorMessage
      simp only [String.data_append, List.append_assoc]
      apply isInfix_append_right
      apply isInfix_append_right
      apply isInfix_append_right
      apply isInfix_append_left
      exact List.infix_refl _
  · intro size m now hle
    refine ⟨by unfold initGame; rw [if_neg hle], ?_, ?_, ?_⟩
    · simp only [initGameUnchecked, List.length_map, List.length_range]
      rfl
    · intro i hi
      simp only [initGameUnchecked, List.length_map] at hi ⊢
      have hi' : i < (rowCount size).toNat := by
        simpa using List.mem_range.mp hi
      rw [List.getD_eq_getElem?_getD, List.getElem?_map, List.getElem?_range hi']
      simp [cellCountInRow]
    · intro row hrow t ht
      simp only [initGameUnchecked, List.mem_map] at hrow
      obtain ⟨yn, -, rfl⟩ := hrow
      simp only [List.mem_map] at ht
      obtain ⟨xn, -, rfl⟩ := ht
      rfl

/-- Witness for C5: with size 2 and mine count 3 construction succeeds and
builds rows of widths 2, 3, 2 of blank tiles. -/
theorem initGame_validation_witness :
    ¬((3 : Int) > highestPossibleMineCountForSize 2) ∧
    initGame 2 3 0 = .ok (initGameUnchecked 2 3 0) ∧
    (initGameUnchecked 2 3 0).grid.length = ((2 * 2 - 1 : Int)).toNat ∧
    ((7 : Int) > highestPossibleMineCountForSize 2) ∧
    initGame 2 7 0 = .error ⟨mineCountErrorMessage 2 7⟩ :=
  ⟨by decide, ((initGame_validation.2.2 2 3 0 (by decide)).1),
    ((initGame_validation.2.2 2 3 0 (by decide)).2.1), by decide,
    (initGame_validation.2.1 2 7 0 (by decide)).1⟩

/-- Counterexample to C5 as stated: for size 2 and requested count 7 the
message text does not contain the maximum allowed count 6 — it names the total
tile count 7 instead. -/
theorem initGame_error_names_cex :
    initGame 2 7 0 = .error ⟨mineCountErrorMessage 2 7⟩ ∧
    highestPossibleMineCountForSize 2 = 6 ∧
    ¬((toString (6 : Int)).data <:+: (mineCountErrorMessage 2 7).data) := by
  refine ⟨(initGame_validation.2.1 2 7 0 (by decide)).1, by decide, ?_⟩
  intro h
  have h6 : '6' ∈ (mineCountErrorMessage 2 7).data := by
    obtain ⟨s, t, he⟩ := h
    rw [← he]
    exact List.mem_append.mpr (Or.inl (List.mem_append.mpr (Or.inr (by decide))))
  revert h6
  decide

/-! ## C1: the game-over evaluator's decision logic -/

/-- The terminal-state force-reveal loop does not touch the grid metadata. -/
lemma foldlReveal_meta (l : List GamePos) (g : HexGrid) :
    (l.foldl (fun h p => if (h.getTile p).flag then h else h.revealAt p) g).size = g.size ∧
    (l.foldl (fun h p => if (h.getTile p).flag then h else h.revealAt p) g).mineCount = g.mineCount ∧
    (l.foldl (fun h p => if (h.getTile p).flag then h else h.revealAt p) g).startTime = g.startTime ∧
    (l.foldl (fun h p => if (h.getTile p).flag then h else h.revealAt p) g).minesHaveBeenGenerated = g.minesHaveBeenGenerated := by
  induction l generalizing g with
  | nil => exact ⟨rfl, rfl, rfl, rfl⟩
  | cons p l ih =>
    simp only [List.foldl_cons]
    by_cases hf : (g.getTile p).flag
    · simpa [hf] using ih g
    · simpa [hf, HexGrid.revealAt] using ih (g.revealAt p)

lemma forceRevealUnflagged_meta (g : HexGrid) :
    (forceRevealUnflagged g).size = g.size ∧
    (forceRevealUnflagged g).mineCount = g.mineCount ∧
    (forceRevealUnflagged g).startTime = g.startTime ∧
    (forceRevealUnflagged g).minesHaveBeenGenerated = g.minesHaveBeenGenerated :=
  foldlReveal_meta (allValidCoords g.size) g

lemma safeHiddenTileCount_eq_zero_iff (g : HexGrid) :
    safeHiddenTileCount g = 0 ↔
      ∀ p ∈ allValidCoords g.size,
        (g.getTile p).mine = true ∨ (g.getTile p).revealed = true := by
  unfold safeHiddenTileCount
  rw [List.length_eq_zero, List.filter_eq_nil_iff]
  constructor <;> intro h p hp <;> have hpp := h p hp <;> revert hpp <;>
    cases hm : (g.getTile p).mine <;> cases hr : (g.getTile p).revealed <;> simp

lemma revealedMinePositions_ne_nil_iff (g : HexGrid) :
    revealedMinePositions g ≠ [] ↔
      ∃ p ∈ allValidCoords g.size,
        (g.getTile p).mine = true ∧ (g.getTile p).revealed = true := by
  unfold revealedMinePositions
  constructor
  · intro h
    obtain ⟨p, hp⟩ := List.exists_mem_of_ne_nil _ h
    rw [List.mem_filter] at hp
    refine ⟨p, hp.1, ?_⟩
    have := hp.2
    revert this
    cases (g.getTile p).mine <;> cases (g.getTile p).revealed <;> simp
  · rintro ⟨p, hp1, hm, hr⟩ hnil
    have hmem : p ∈ (allValidCoords g.size).filter
        (fun p => (g.getTile p).mine && (g.getTile p).revealed) :=
      List.mem_filter.mpr ⟨hp1, by simp [hm, hr]⟩
    rw [hnil] at hmem
    exact absurd hmem (List.not_mem_nil p)

/-- C1: after mines have been generated, the evaluator declares `Won` iff the
count of tiles that are neither a mine nor revealed is zero; it checks that
condition before the loss condition, declares `Lost` iff (not `Won` and) some
mine tile is revealed, and otherwise stays `Ongoing`.  No other condition
(such as matching flags to mines) produces `Won`: the win test is exactly
`safeHiddenTileCount = 0`. -/
theorem restartIfGameIsOver_status (g : HexGrid) (now : Int)
    (hgen : g.minesHaveBeenGenerated = true)
    (hmc : g.mineCount ≤ highestPossibleMineCountForSize g.size) :
    ∃ g' st ev, g.restartIfGameIsOver now = .ok (g', st, ev) ∧
      (st = .won ↔ safeHiddenTileCount g = 0) ∧
      (st = .lost ↔ safeHiddenTileCount g ≠ 0 ∧ revealedMinePositions g ≠ []) ∧
      (st = .ongoing ↔ safeHiddenTileCount g ≠ 0 ∧ revealedMinePositions g = []) ∧
      (safeHiddenTileCount g = 0 ↔ ∀ p ∈ allValidCoords g.size,
        (g.getTile p).mine = true ∨ (g.getTile p).revealed = true) ∧
      (revealedMinePositions g ≠ [] ↔ ∃ p ∈ allValidCoords g.size,
        (g.getTile p).mine = true ∧ (g.getTile p).revealed = true) := by
  obtain ⟨hs, hm, -, -⟩ := forceRevealUnflagged_meta g
  have hok : (forceRevealUnflagged g).restartGame none none now =
      .ok (initGameUnchecked g.size g.mineCount now) := by
    unfold HexGrid.restartGame initGame
    simp only [falsyOr, hs, hm]
    rw [if_neg (by omega)]
  unfold HexGrid.restartIfGameIsOver
  rw [if_neg (by simp [hgen])]
  by_cases h1 : safeHiddenTileCount g = 0
  · rw [if_pos h1]
    refine ⟨initGameUnchecked g.size g.mineCount now, .won,
      [.redraw,
        .alert "Minesweeper" ("Congratulations!\nYou won the game in " ++
          winDurationText (now - g.startTime) ++ "."),
        .redraw], ?_, by simp [h1],
      by simp [h1], by simp [h1], safeHiddenTileCount_eq_zero_iff g,
      revealedMinePositions_ne_nil_iff g⟩
    simp only [hok]
  · rw [if_neg h1]
    by_cases h2 : revealedMinePositions g = []
    · rw [if_neg (by simp [h2])]
      exact ⟨g, .ongoing, [.redraw], rfl, by simp [h1], by simp [h2],
        by simp [h1, h2], safeHiddenTileCount_eq_zero_iff g,
        revealedMinePositions_ne_nil_iff g⟩
    · rw [if_pos (by simp [List.isEmpty_iff, h2])]
      refine ⟨initGameUnchecked g.size g.mineCount now, .lost,
        [.redraw, .alert "Minesweeper" "Game over.\nTry again!", .redraw], ?_,
        by simp [h1], by simp [h1, h2], by simp [h2],
        safeHiddenTileCount_eq_zero_iff g, revealedMinePositions_ne_nil_iff g⟩
      simp only [hok]

/-- Witness for C1: a size-2 grid with the generation flag set and one
(unplaced) mine satisfies the evaluator characterisation. -/
theorem restartIfGameIsOver_status_witness :
    wGridGen.minesHaveBeenGenerated = true ∧
    wGridGen.mineCount ≤ highestPossibleMineCountForSize wGridGen.size ∧
    (∃ g' st ev, wGridGen.restartIfGameIsOver 0 = .ok (g', st, ev) ∧
      (st = .won ↔ safeHiddenTileCount wGridGen = 0) ∧
      (st = .lost ↔ safeHiddenTileCount wGridGen ≠ 0 ∧
        revealedMinePositions wGridGen ≠ []) ∧
      (st = .ongoing ↔ safeHiddenTileCount wGridGen ≠ 0 ∧
        revealedMinePositions wGridGen = []) ∧
      (safeHiddenTileCount wGridGen = 0 ↔ ∀ p ∈ allValidCoords wGridGen.size,
        (wGridGen.getTile p).mine = true ∨ (wGridGen.getTile p).revealed = true) ∧
      (revealedMinePositions wGridGen ≠ [] ↔ ∃ p ∈ allValidCoords wGridGen.size,
        (wGridGen.getTile p).mine = true ∧ (wGridGen.getTile p).revealed = true)) :=
  ⟨by decide, by decide, restartIfGameIsOver_status wGridGen 0 (by decide) (by decide)⟩

/-! ## C3: lazy mine generation -/

/-- Every tile of a freshly constructed grid is blank. -/
lemma getTile_initGameUnchecked (size m now : Int) (p : GamePos) :
    (initGameUnchecked size m now).getTile p = blankTile := by
  have hall : ∀ row ∈ (initGameUnchecked size m now).grid, ∀ t ∈ row,
      t = blankTile := by
    intro row hrow t ht
    simp only [initGameUnchecked, List.mem_map] at hrow
    obtain ⟨yn, -, rfl⟩ := hrow
    simp only [List.mem_map] at ht
    obtain ⟨xn, -, rfl⟩ := ht
    rfl
  unfold HexGrid.getTile
  rcases hJ : (initGameUnchecked size m now).grid[p.2.toNat]? with _ | row
  · simp [List.getD_eq_getElem?_getD, hJ]
  · rcases hI : row[p.1.toNat]? with _ | t
    · simp [List.getD_eq_getElem?_getD, hJ, hI]
    · obtain ⟨hlt, hel⟩ := List.getElem?_eq_some.mp hJ
      have hrow : row ∈ (initGameUnchecked size m now).grid := hel ▸ List.getElem_mem hlt
      obtain ⟨hlt2, hel2⟩ := List.getElem?_eq_some.mp hI
      have htm : t ∈ row := hel2 ▸ List.getElem_mem hlt2
      have hrw : (initGameUnchecked size m now).grid.getD p.2.toNat [] = row := by
        rw [List.getD_eq_getElem?_getD, hJ]
        rfl
      rw [hrw, List.getD_eq_getElem?_getD, hI]
      exact hall row hrow t htm

/-- Effect of the mine-placing loop on the mine field of every valid tile. -/
lemma mine_foldl_changeIntoMine (sample : List GamePos) (g : HexGrid)
    (hwf : g.WF) (hvalid : ∀ p ∈ sample, isPositionValid g.size p.1 p.2 = true)
    (q : GamePos) (hq : isPositionValid g.size q.1 q.2 = true) :
    ((sample.foldl (fun h p => h.changeIntoMineAt p) g).getTile q).mine =
      ((g.getTile q).mine || decide (q ∈ sample)) := by
  induction sample generalizing g with
  | nil => simp
  | cons p rest ih =>
    have hpv : isPositionValid g.size p.1 p.2 = true :=
      hvalid p (List.mem_cons_self p rest)
    have hwf' : (g.changeIntoMineAt p).WF := wf_setTile _ _ hwf
    have hvalid' : ∀ r ∈ rest,
        isPositionValid (g.changeIntoMineAt p).size r.1 r.2 = true :=
      fun r hr => hvalid r (List.mem_cons_of_mem p hr)
    rw [List.foldl_cons, ih (g.changeIntoMineAt p) hwf' hvalid' hq]
    by_cases hqp : q = p
    · subst hqp
      unfold HexGrid.changeIntoMineAt
      rw [getTile_setTile_self _ hwf hq]
      simp [Tile.changeIntoMine, List.mem_cons]
    · unfold HexGrid.changeIntoMineAt
      rw [getTile_setTile_ne _ hpv hq (fun h => hqp h.symm)]
      simp [List.mem_cons, hqp]

/-- The mine-placing loop does not touch the grid metadata and keeps the grid
well-formed. -/
lemma foldl_changeIntoMine_meta (sample : List GamePos) (g : HexGrid) :
    (sample.foldl (fun h p => h.changeIntoMineAt p) g).size = g.size ∧
    (g.WF → (sample.foldl (fun h p => h.changeIntoMineAt p) g).WF) := by
  induction sample generalizing g with
  | nil => exact ⟨rfl, fun h => h⟩
  | cons p rest ih =>
    rw [List.foldl_cons]
    obtain ⟨h1, h2⟩ := ih (g.changeIntoMineAt p)
    exact ⟨h1, fun hwf => h2 (wf_setTile _ _ hwf)⟩

/-- Counting members of a duplicate-free sublist inside a duplicate-free
list. -/
lemma filter_mem_length {sample l : List GamePos} (hl : l.Nodup)
    (hs : sample.Nodup) (hsub : ∀ p ∈ sample, p ∈ l) :
    (l.filter (fun p => decide (p ∈ sample))).length = sample.length := by
  have hperm : List.Perm (l.filter (fun p => decide (p ∈ sample))) sample := by
    rw [List.perm_ext_iff_of_nodup (hl.filter _) hs]
    intro a
    rw [List.mem_filter]
    constructor
    · rintro ⟨-, h⟩
      simpa using h
    · intro h
      exact ⟨hsub a h, by simpa using h⟩
  exact hperm.length_eq

/-- C3: on a grid whose mines are not yet generated, `try_generate_mines`
(with `sample` standing for the `random.sample` draw of `mineCount` distinct
positions from all valid coordinates minus the clicked one) marks exactly the
sampled positions as mines — so exactly `mineCount` valid tiles carry a mine —
never mines the clicked position, sets the generation flag, resets the session
clock, and a subsequent call (with any arguments) changes nothing. -/
theorem tryGenerateMines_spec (g : HexGrid) (x y : Int) (sample : List GamePos)
    (now : Int) (hwf : g.WF) (hgen : g.minesHaveBeenGenerated = false)
    (hv : isPositionValid g.size x y = true)
    (hnomine : ∀ p ∈ allValidCoords g.size, (g.getTile p).mine = false)
    (hnodup : sample.Nodup)
    (hsub : ∀ p ∈ sample, p ∈ possibleMineLocations g.size x y)
    (hlen : (sample.length : Int) = g.mineCount) :
    (g.tryGenerateMines x y sample now).minesHaveBeenGenerated = true ∧
    (g.tryGenerateMines x y sample now).startTime = now ∧
    (g.tryGenerateMines x y sample now).size = g.size ∧
    (∀ q, isPositionValid g.size q.1 q.2 = true →
      (((g.tryGenerateMines x y sample now).getTile q).mine = true ↔ q ∈ sample)) ∧
    ((g.tryGenerateMines x y sample now).getTile (x, y)).mine = false ∧
    (((allValidCoords (g.tryGenerateMines x y sample now).size).filter
        (fun p => ((g.tryGenerateMines x y sample now).getTile p).mine)).length : Int)
      = g.mineCount ∧
    (∀ x' y' sample' now',
      (g.tryGenerateMines x y sample now).tryGenerateMines x' y' sample' now' =
        g.tryGenerateMines x y sample now) := by
  have hvalid : ∀ p ∈ sample, isPositionValid g.size p.1 p.2 = true := by
    intro p hp
    exact mem_allValidCoords.mp (List.mem_of_mem_erase (hsub p hp))
  have hxy : (x, y) ∉ sample := by
    intro hmem
    have := (List.Nodup.mem_erase_iff (allValidCoords_nodup g.size)).mp (hsub _ hmem)
    exact this.1 rfl
  have hunf : g.tryGenerateMines x y sample now =
      { sample.foldl (fun h p => h.changeIntoMineAt p) g with
          minesHaveBeenGenerated := true, startTime := now } := by
    unfold HexGrid.tryGenerateMines
    rw [if_neg (by simp [hgen])]
  obtain ⟨hfsz, -⟩ := foldl_changeIntoMine_meta sample g
  have hsz : (g.tryGenerateMines x y sample now).size = g.size := by
    rw [hunf]
    exact hfsz
  have hget : ∀ q, (g.tryGenerateMines x y sample now).getTile q =
      (sample.foldl (fun h p => h.changeIntoMineAt p) g).getTile q := by
    intro q
    rw [hunf]
    rfl
  have hmine : ∀ q, isPositionValid g.size q.1 q.2 = true →
      ((g.tryGenerateMines x y sample now).getTile q).mine = decide (q ∈ sample) := by
    intro q hq
    rw [hget q, mine_foldl_changeIntoMine sample g hwf hvalid q hq,
      hnomine q (mem_allValidCoords.mpr hq)]
    simp
  refine ⟨by rw [hunf], by rw [hunf], hsz, ?_, ?_, ?_, ?_⟩
  · intro q hq
    rw [hmine q hq]
    simp
  · rw [hmine (x, y) hv]
    simpa using hxy
  · rw [hsz]
    have hfeq : (allValidCoords g.size).filter
        (fun p => ((g.tryGenerateMines x y sample now).getTile p).mine) =
        (allValidCoords g.size).filter (fun p => decide (p ∈ sample)) := by
      apply List.filter_congr
      intro p hp
      rw [hmine p (mem_allValidCoords.mp hp)]
    rw [hfeq, filter_mem_length (allValidCoords_nodup g.size) hnodup
      (fun p hp => List.mem_of_mem_erase (hsub p hp))]
    exact hlen
  · intro x' y' sample' now'
    have hflag : (g.tryGenerateMines x y sample now).minesHaveBeenGenerated = true := by
      rw [hunf]
    have hstop : ∀ h : HexGrid, h.minesHaveBeenGenerated = true →
        h.tryGenerateMines x' y' sample' now' = h := by
      intro h hh
      unfold HexGrid.tryGenerateMines
      rw [if_pos hh]
    exact hstop _ hflag

/-- Witness for C3: generating one mine at `(1, 1)` on the fresh size-2 grid
after a click at `(0, 0)`. -/
theorem tryGenerateMines_spec_witness :
    wGrid21.WF ∧ wGrid21.minesHaveBeenGenerated = false ∧
    isPositionValid wGrid21.size 0 0 = true ∧
    ((wGrid21.tryGenerateMines 0 0 [(1, 1)] 9).minesHaveBeenGenerated = true ∧
      (wGrid21.tryGenerateMines 0 0 [(1, 1)] 9).startTime = 9 ∧
      (wGrid21.tryGenerateMines 0 0 [(1, 1)] 9).size = wGrid21.size ∧
      (∀ q, isPositionValid wGrid21.size q.1 q.2 = true →
        (((wGrid21.tryGenerateMines 0 0 [(1, 1)] 9).getTile q).mine = true ↔
          q ∈ [((1 : Int), (1 : Int))])) ∧
      ((wGrid21.tryGenerateMines 0 0 [(1, 1)] 9).getTile (0, 0)).mine = false ∧
      (((allValidCoords (wGrid21.tryGenerateMines 0 0 [(1, 1)] 9).size).filter
          (fun p => ((wGrid21.tryGenerateMines 0 0 [(1, 1)] 9).getTile p).mine)).length : Int)
        = wGrid21.mineCount ∧
      (∀ x' y' sample' now',
        (wGrid21.tryGenerateMines 0 0 [(1, 1)] 9).tryGenerateMines x' y' sample' now' =
          wGrid21.tryGenerateMines 0 0 [(1, 1)] 9)) :=
  ⟨by decide, by decide, by decide,
    tryGenerateMines_spec wGrid21 0 0 [(1, 1)] 9 (by decide) (by decide) (by decide)
      (by decide) (by decide) (by decide) (by decide)⟩

/-! ## Tile-level and count-level invariant machinery (for C4 and C8) -/

/-- Reading any position of a grid satisfying the no-flag-revealed invariant
yields a tile satisfying it (out-of-range reads default to the blank tile). -/
lemma noFlagRevealed_getTile {g : HexGrid} (h : NoFlagRevealed g) (p : GamePos) :
    ¬((g.getTile p).flag = true ∧ (g.getTile p).revealed = true) := by
  unfold HexGrid.getTile
  rcases hJ : g.grid[p.2.toNat]? with _ | row
  · simp [List.getD_eq_getElem?_getD, hJ, blankTile]
  · obtain ⟨hlt, hel⟩ := List.getElem?_eq_some.mp hJ
    have hrow : row ∈ g.grid := hel ▸ List.getElem_mem hlt
    rcases hI : row[p.1.toNat]? with _ | t
    · simp [List.getD_eq_getElem?_getD, hJ, hI, blankTile]
    · obtain ⟨hlt2, hel2⟩ := List.getElem?_eq_some.mp hI
      have htm : t ∈ row := hel2 ▸ List.getElem_mem hlt2
      have hrw : g.grid.getD p.2.toNat [] = row := by
        rw [List.getD_eq_getElem?_getD, hJ]
        rfl
      rw [hrw, List.getD_eq_getElem?_getD, hI]
      exact h row hrow t htm

/-- Writing an invariant-respecting tile preserves the invariant. -/
lemma noFlagRevealed_setTile {g : HexGrid} (p : GamePos) (t : Tile)
    (h : NoFlagRevealed g) (ht : ¬(t.flag = true ∧ t.revealed = true)) :
    NoFlagRevealed (g.setTile p t) := by
  intro row hrow t' ht'
  unfold HexGrid.setTile at hrow
  rcases List.mem_or_eq_of_mem_set hrow with hold | hnew
  · exact h row hold t' ht'
  · subst hnew
    rcases List.mem_or_eq_of_mem_set ht' with hold2 | hnew2
    · rcases hJ : g.grid[p.2.toNat]? with _ | oldRow
      · rw [show g.grid.getD p.2.toNat [] = [] from by
          rw [List.getD_eq_getElem?_getD, hJ]
          rfl] at hold2
        exact absurd hold2 (List.not_mem_nil t')
      · obtain ⟨hlt, hel⟩ := List.getElem?_eq_some.mp hJ
        have hrowmem : oldRow ∈ g.grid := hel ▸ List.getElem_mem hlt
        rw [show g.grid.getD p.2.toNat [] = oldRow from by
          rw [List.getD_eq_getElem?_getD, hJ]
          rfl] at hold2
        exact h oldRow hrowmem t' hold2
    · subst hnew2
      exact ht

/-- `reveal` keeps a tile inside the invariant. -/
lemma tileOK_reveal {t : Tile} (h : ¬(t.flag = true ∧ t.revealed = true)) :
    ¬(t.reveal.flag = true ∧ t.reveal.revealed = true) := by
  unfold Tile.reveal
  by_cases hf : t.flag
  · rw [if_pos hf]
    exact h
  · rw [if_neg hf]
    rintro ⟨hc, -⟩
    exact hf hc

/-- A revealed tile renders with the same color whatever its flag. -/
lemma color_ignores_flag {t : Tile} (hr : t.revealed = true) (c : Int) (b : Bool) :
    Tile.color c { t with flag := b } = Tile.color c t := by
  obtain ⟨r, m, f⟩ := t
  simp only at hr
  subst hr
  rfl

/-- If an unflagged tile passes the color-diffing test, it is unrevealed. -/
lemma canToggleFlag_not_revealed {t : Tile} (c : Int) (hf : t.flag = false)
    (hc : t.canToggleFlag c = true) : t.revealed = false := by
  obtain ⟨r, m, f⟩ := t
  simp only at hf
  subst hf
  cases r
  · rfl
  · exfalso
    cases m
    · by_cases hgt : c > 0 <;> simp [Tile.canToggleFlag, Tile.color, hgt] at hc
    · simp [Tile.canToggleFlag, Tile.color] at hc

lemma noFlagRevealed_revealAt {g : HexGrid} (p : GamePos) (h : NoFlagRevealed g) :
    NoFlagRevealed (g.revealAt p) :=
  noFlagRevealed_setTile p _ h (tileOK_reveal (noFlagRevealed_getTile h p))

lemma noFlagRevealed_changeIntoMineAt {g : HexGrid} (p : GamePos)
    (h : NoFlagRevealed g) : NoFlagRevealed (g.changeIntoMineAt p) := by
  refine noFlagRevealed_setTile p _ h ?_
  have := noFlagRevealed_getTile h p
  simpa [Tile.changeIntoMine] using this

lemma noFlagRevealed_setFlagAt {g : HexGrid} (p : GamePos) (h : NoFlagRevealed g) :
    NoFlagRevealed (g.setFlagAt p) := by
  refine noFlagRevealed_setTile p _ h ?_
  set t := g.getTile p with hteq
  unfold Tile.setFlagTile
  by_cases hf : t.flag
  · rw [if_pos hf]
    exact noFlagRevealed_getTile h p
  · rw [if_neg hf]
    by_cases hc : t.canToggleFlag (g.adjacentMineCount p.1 p.2)
    · rw [if_neg (by simp [hc])]
      have hr := canToggleFlag_not_revealed _ (by simpa using hf) hc
      rintro ⟨-, hrev⟩
      rw [show ({ t with flag := true } : Tile).revealed = t.revealed from rfl] at hrev
      rw [hr] at hrev
      exact absurd hrev (by simp)
    · rw [if_pos (by simp [hc])]
      exact noFlagRevealed_getTile h p

lemma noFlagRevealed_unsetFlagAt {g : HexGrid} (p : GamePos)
    (h : NoFlagRevealed g) : NoFlagRevealed (g.unsetFlagAt p) := by
  refine noFlagRevealed_setTile p _ h ?_
  set t := g.getTile p with hteq
  unfold Tile.unsetFlagTile
  by_cases hf : t.flag
  · rw [if_neg (by simp [hf])]
    by_cases hc : t.canToggleFlag (g.adjacentMineCount p.1 p.2)
    · rw [if_neg (by simp [hc])]
      rintro ⟨hfl, -⟩
      rw [show ({ t with flag := false } : Tile).flag = false from rfl] at hfl
      exact absurd hfl (by simp)
    · rw [if_pos (by simp [hc])]
      exact noFlagRevealed_getTile h p
  · rw [if_pos (by simp [hf])]
    exact noFlagRevealed_getTile h p

/-- All tiles of a fresh grid are blank. -/
lemma initGameUnchecked_blank (size m now : Int) :
    ∀ row ∈ (initGameUnchecked size m now).grid, ∀ t ∈ row, t = blankTile := by
  intro row hrow t ht
  simp only [initGameUnchecked, List.mem_map] at hrow
  obtain ⟨yn, -, rfl⟩ := hrow
  simp only [List.mem_map] at ht
  obtain ⟨xn, -, rfl⟩ := ht
  rfl

lemma noFlagRevealed_initGameUnchecked (size m now : Int) :
    NoFlagRevealed (initGameUnchecked size m now) := by
  intro row hrow t ht
  rw [initGameUnchecked_blank size m now row hrow t ht]
  simp [blankTile]

lemma totalFlagCount_initGameUnchecked (size m now : Int) :
    (initGameUnchecked size m now).totalFlagCount = 0 := by
  unfold HexGrid.totalFlagCount
  rw [show (allValidCoords (initGameUnchecked size m now).size).filter
      (fun p => ((initGameUnchecked size m now).getTile p).flag) = [] from ?_]
  · rfl
  · rw [List.filter_eq_nil_iff]
    intro p hp
    rw [getTile_initGameUnchecked]
    simp [blankTile]

/-- Changing a predicate at a single element of a duplicate-free list shifts
its filter count by at most one. -/
lemma length_filter_le_succ {l : List GamePos} (f h : GamePos → Bool)
    (a : GamePos) (hl : l.Nodup) (hagree : ∀ x ∈ l, x ≠ a → f x = h x) :
    (l.filter f).length ≤ (l.filter h).length + 1 := by
  induction l with
  | nil => simp
  | cons x xs ih =>
    obtain ⟨hnm, hnd⟩ := List.nodup_cons.mp hl
    by_cases hxa : x = a
    · subst hxa
      have hfeq : xs.filter f = xs.filter h :=
        List.filter_congr (fun z hz =>
          hagree z (List.mem_cons_of_mem x hz) (fun hzx => hnm (hzx ▸ hz)))
      rw [List.filter_cons, List.filter_cons, hfeq]
      by_cases hfx : f x = true <;> by_cases hhx : h x = true <;>
        simp [hfx, hhx] <;> omega
    · have hfx : f x = h x := hagree x (List.mem_cons_self x xs) hxa
      have hih := ih hnd (fun z hz => hagree z (List.mem_cons_of_mem x hz))
      rw [List.filter_cons, List.filter_cons, hfx]
      by_cases hhx : h x = true <;> simp [hhx] <;> omega

/-- Turning the predicate off at exactly one member of a duplicate-free list
drops its filter count by exactly one. -/
lemma length_filter_flip {l : List GamePos} (f h : GamePos → Bool) (a : GamePos)
    (hl : l.Nodup) (ha : a ∈ l) (hfa : f a = false) (hha : h a = true)
    (hagree : ∀ x ∈ l, x ≠ a → f x = h x) :
    (l.filter f).length + 1 = (l.filter h).length := by
  induction l with
  | nil => exact absurd ha (List.not_mem_nil a)
  | cons x xs ih =>
    obtain ⟨hnm, hnd⟩ := List.nodup_cons.mp hl
    by_cases hxa : x = a
    · subst hxa
      have hfeq : xs.filter f = xs.filter h :=
        List.filter_congr (fun z hz =>
          hagree z (List.mem_cons_of_mem x hz) (fun hzx => hnm (hzx ▸ hz)))
      rw [List.filter_cons, List.filter_cons, hfeq, if_neg (by simp [hfa]),
        if_pos hha]
      simp
    · have haxs : a ∈ xs := by
        rcases List.mem_cons.mp ha with h1 | h2
        · exact absurd h1.symm hxa
        · exact h2
      have hfx : f x = h x := hagree x (List.mem_cons_self x xs) hxa
      have hih := ih hnd haxs (fun z hz => hagree z (List.mem_cons_of_mem x hz))
      rw [List.filter_cons, List.filter_cons, hfx]
      by_cases hhx : h x = true <;> simp [hhx] <;> omega

/-- The unique valid coordinate sharing a slot with `p` is `p`'s
nonnegative representative. -/
lemma valid_eq_of_slot_eq {size : Int} {q : GamePos} (p : GamePos)
    (hq : isPositionValid size q.1 q.2 = true)
    (h2 : p.2.toNat = q.2.toNat) (h1 : p.1.toNat = q.1.toNat) :
    q = ((p.1.toNat : Int), (p.2.toNat : Int)) := by
  obtain ⟨hy0, -, hx0, -⟩ := isPositionValid_iff.mp hq
  rw [h1, h2, Int.toNat_of_nonneg hx0, Int.toNat_of_nonneg hy0]

/-- Placing a flag raises the flag count by at most one. -/
lemma totalFlagCount_setFlagAt_le (g : HexGrid) (p : GamePos) :
    (g.setFlagAt p).totalFlagCount ≤ g.totalFlagCount + 1 := by
  unfold HexGrid.totalFlagCount
  rw [show (g.setFlagAt p).size = g.size from rfl]
  apply length_filter_le_succ _ _ (((p.1.toNat : Int), (p.2.toNat : Int)))
    (allValidCoords_nodup g.size)
  intro q hq hne
  have hqv := mem_allValidCoords.mp hq
  unfold HexGrid.setFlagAt
  rw [getTile_setTile, if_neg]
  rintro ⟨h2, h1, -⟩
  exact hne (valid_eq_of_slot_eq p hqv h2 h1)

/-- Removing the flag from a flagged, valid tile lowers the flag count by
exactly one. -/
lemma totalFlagCount_unsetFlagAt (g : HexGrid) (p : GamePos) (hwf : g.WF)
    (hv : isPositionValid g.size p.1 p.2 = true)
    (hflag : (g.getTile p).flag = true) :
    (g.unsetFlagAt p).totalFlagCount + 1 = g.totalFlagCount ∧
    ((g.unsetFlagAt p).getTile p).flag = false := by
  have hres : (g.unsetFlagAt p).getTile p = { g.getTile p with flag := false } := by
    unfold HexGrid.unsetFlagAt
    rw [getTile_setTile_self _ hwf hv]
    unfold Tile.unsetFlagTile
    rw [if_neg (by simp [hflag]), if_neg (by simp [Tile.canToggleFlag, hflag])]
  refine ⟨?_, by rw [hres]⟩
  unfold HexGrid.totalFlagCount
  rw [show (g.unsetFlagAt p).size = g.size from rfl]
  apply length_filter_flip _ _ p (allValidCoords_nodup g.size)
    (mem_allValidCoords.mpr hv) (by rw [hres]) hflag
  intro q hq hne
  have hqv := mem_allValidCoords.mp hq
  unfold HexGrid.unsetFlagAt
  rw [getTile_setTile_ne _ hv hqv (fun h => hne h.symm)]

/-- Revealing anywhere never changes the revealed state of a flagged tile. -/
lemma revealed_revealAt_flagged (g : HexGrid) (p q : GamePos)
    (hq : (g.getTile q).flag = true) :
    ((g.revealAt p).getTile q).revealed = (g.getTile q).revealed := by
  unfold HexGrid.revealAt
  rw [getTile_setTile]
  split
  · next h =>
    rw [getTile_congr_slots g h.1 h.2.1]
    unfold Tile.reveal
    rw [if_pos hq]
  · rfl

/-- Combined effects of the mine-placing fold that are needed for the engine
invariants. -/
lemma foldl_changeIntoMine_more (sample : List GamePos) (g : HexGrid) :
    (sample.foldl (fun h p => h.changeIntoMineAt p) g).mineCount = g.mineCount ∧
    (∀ q, ((sample.foldl (fun h p => h.changeIntoMineAt p) g).getTile q).flag =
        (g.getTile q).flag ∧
      ((sample.foldl (fun h p => h.changeIntoMineAt p) g).getTile q).revealed =
        (g.getTile q).revealed) ∧
    (NoFlagRevealed g →
      NoFlagRevealed (sample.foldl (fun h p => h.changeIntoMineAt p) g)) := by
  induction sample generalizing g with
  | nil => exact ⟨rfl, fun q => ⟨rfl, rfl⟩, fun h => h⟩
  | cons p rest ih =>
    rw [List.foldl_cons]
    obtain ⟨h1, h2, h3⟩ := ih (g.changeIntoMineAt p)
    refine ⟨h1, ?_, fun h => h3 (noFlagRevealed_changeIntoMineAt p h)⟩
    intro q
    exact ⟨((h2 q).1).trans (flag_changeIntoMineAt g p q),
      ((h2 q).2).trans (revealed_changeIntoMineAt g p q)⟩

/-- Combined effects of `try_generate_mines` on everything except the mines. -/
lemma tryGenerateMines_effects (g : HexGrid) (x y : Int) (sample : List GamePos)
    (now : Int) :
    (g.tryGenerateMines x y sample now).size = g.size ∧
    (g.tryGenerateMines x y sample now).mineCount = g.mineCount ∧
    (∀ q, ((g.tryGenerateMines x y sample now).getTile q).flag = (g.getTile q).flag ∧
      ((g.tryGenerateMines x y sample now).getTile q).revealed = (g.getTile q).revealed) ∧
    (g.WF → (g.tryGenerateMines x y sample now).WF) ∧
    (NoFlagRevealed g → NoFlagRevealed (g.tryGenerateMines x y sample now)) := by
  by_cases hg : g.minesHaveBeenGenerated
  · unfold HexGrid.tryGenerateMines
    rw [if_pos hg]
    exact ⟨rfl, rfl, fun q => ⟨rfl, rfl⟩, fun h => h, fun h => h⟩
  · have hunf : g.tryGenerateMines x y sample now =
        { sample.foldl (fun h p => h.changeIntoMineAt p) g with
            minesHaveBeenGenerated := true, startTime := now } := by
      unfold HexGrid.tryGenerateMines
      rw [if_neg hg]
    obtain ⟨hsz, hwf⟩ := foldl_changeIntoMine_meta sample g
    obtain ⟨hmc, hfields, hnfr⟩ := foldl_changeIntoMine_more sample g
    rw [hunf]
    refine ⟨hsz, hmc, hfields, ?_, hnfr⟩
    intro h
    have h2 := hwf h
    obtain ⟨ha, hb⟩ := h2
    exact ⟨ha, hb⟩

/-- Combined effects of the force-reveal loop. -/
lemma foldlReveal_effects (l : List GamePos) (g : HexGrid) :
    (∀ q, ((l.foldl (fun h p => if (h.getTile p).flag then h else h.revealAt p) g).getTile q).flag =
        (g.getTile q).flag ∧
      ((l.foldl (fun h p => if (h.getTile p).flag then h else h.revealAt p) g).getTile q).mine =
        (g.getTile q).mine) ∧
    (∀ q, (g.getTile q).flag = true →
      ((l.foldl (fun h p => if (h.getTile p).flag then h else h.revealAt p) g).getTile q).revealed =
        (g.getTile q).revealed) ∧
    (g.WF → (l.foldl (fun h p => if (h.getTile p).flag then h else h.revealAt p) g).WF) ∧
    (NoFlagRevealed g →
      NoFlagRevealed (l.foldl (fun h p => if (h.getTile p).flag then h else h.revealAt p) g)) := by
  induction l generalizing g with
  | nil => exact ⟨fun q => ⟨rfl, rfl⟩, fun q _ => rfl, fun h => h, fun h => h⟩
  | cons p rest ih =>
    rw [List.foldl_cons]
    by_cases hf : (g.getTile p).flag
    · rw [if_pos hf]
      exact ih g
    · rw [if_neg hf]
      obtain ⟨ih1, ih2, ih3, ih4⟩ := ih (g.revealAt p)
      refine ⟨?_, ?_, fun h => ih3 (wf_setTile _ _ h),
        fun h => ih4 (noFlagRevealed_revealAt p h)⟩
      · intro q
        exact ⟨((ih1 q).1).trans (flag_revealAt g p q),
          ((ih1 q).2).trans (mine_revealAt g p q)⟩
      · intro q hq
        have hq' : ((g.revealAt p).getTile q).flag = true :=
          (flag_revealAt g p q).trans hq
        exact (ih2 q hq').trans (revealed_revealAt_flagged g p q hq)

/-- Combined effects of one pass over the adjacent tiles in the flood fill. -/
lemma floodAdjFold_effects (adjs : List GamePos) :
    ∀ (g : HexGrid) (q0 : List GamePos),
      ((adjs.foldl floodAdjStep (g, q0)).1.size = g.size ∧
        (adjs.foldl floodAdjStep (g, q0)).1.mineCount = g.mineCount ∧
        (adjs.foldl floodAdjStep (g, q0)).1.startTime = g.startTime ∧
        (adjs.foldl floodAdjStep (g, q0)).1.minesHaveBeenGenerated =
          g.minesHaveBeenGenerated) ∧
      (∀ q, ((adjs.foldl floodAdjStep (g, q0)).1.getTile q).flag = (g.getTile q).flag ∧
        ((adjs.foldl floodAdjStep (g, q0)).1.getTile q).mine = (g.getTile q).mine) ∧
      (∀ q, (g.getTile q).flag = true →
        ((adjs.foldl floodAdjStep (g, q0)).1.getTile q).revealed =
          (g.getTile q).revealed) ∧
      (g.WF → (adjs.foldl floodAdjStep (g, q0)).1.WF) ∧
      (NoFlagRevealed g → NoFlagRevealed (adjs.foldl floodAdjStep (g, q0)).1) := by
  induction adjs with
  | nil =>
    intro g q0
    exact ⟨⟨rfl, rfl, rfl, rfl⟩, fun q => ⟨rfl, rfl⟩, fun q _ => rfl,
      fun h => h, fun h => h⟩
  | cons a rest ih =>
    intro g q0
    rw [List.foldl_cons,
      show floodAdjStep (g, q0) a = ((g.revealAt a), (floodAdjStep (g, q0) a).2) from by
        simp only [floodAdjStep]
        split <;> rfl]
    obtain ⟨⟨im1, im2, im3, im4⟩, if1, if2, if3, if4⟩ :=
      ih (g.revealAt a) (floodAdjStep (g, q0) a).2
    refine ⟨⟨im1, im2, im3, im4⟩, ?_, ?_, fun h => if3 (wf_setTile _ _ h),
      fun h => if4 (noFlagRevealed_revealAt a h)⟩
    · intro q
      exact ⟨((if1 q).1).trans (flag_revealAt g a q),
        ((if1 q).2).trans (mine_revealAt g a q)⟩
    · intro q hq
      have hq' : ((g.revealAt a).getTile q).flag = true :=
        (flag_revealAt g a q).trans hq
      exact (if2 q hq').trans (revealed_revealAt_flagged g a q hq)

/-- Combined effects of the flood-fill loop: only `revealed` fields of
unflagged tiles can change. -/
lemma floodAux_effects : ∀ (fuel : Nat) (g : HexGrid) (queue complete : List GamePos)
    (res : HexGrid × List GamePos), floodAux fuel g queue complete = some res →
    (res.1.size = g.size ∧ res.1.mineCount = g.mineCount ∧
      res.1.startTime = g.startTime ∧
      res.1.minesHaveBeenGenerated = g.minesHaveBeenGenerated) ∧
    (∀ q, (res.1.getTile q).flag = (g.getTile q).flag ∧
      (res.1.getTile q).mine = (g.getTile q).mine) ∧
    (∀ q, (g.getTile q).flag = true →
      (res.1.getTile q).revealed = (g.getTile q).revealed) ∧
    (g.WF → res.1.WF) ∧ (NoFlagRevealed g → NoFlagRevealed res.1) := by
  intro fuel
  induction fuel with
  | zero =>
    intro g queue complete res h
    cases queue with
    | nil =>
      rw [show floodAux 0 g [] complete = some (g, complete) from rfl] at h
      obtain rfl : (g, complete) = res := Option.some.inj h
      exact ⟨⟨rfl, rfl, rfl, rfl⟩, fun q => ⟨rfl, rfl⟩, fun q _ => rfl,
        fun hh => hh, fun hh => hh⟩
    | cons p rest =>
      rw [show floodAux 0 g (p :: rest) complete = none from rfl] at h
      exact absurd h (by simp)
  | succ n ih =>
    intro g queue complete res h
    cases queue with
    | nil =>
      rw [show floodAux (n + 1) g [] complete = some (g, complete) from rfl] at h
      obtain rfl : (g, complete) = res := Option.some.inj h
      exact ⟨⟨rfl, rfl, rfl, rfl⟩, fun q => ⟨rfl, rfl⟩, fun q _ => rfl,
        fun hh => hh, fun hh => hh⟩
    | cons p rest =>
      rw [show floodAux (n + 1) g (p :: rest) complete =
          (if p ∈ complete then floodAux n g rest complete
           else
             floodAux n ((adjacentPositions (g.revealAt p).size p.1 p.2).foldl
                 floodAdjStep ((g.revealAt p), rest)).1
               ((adjacentPositions (g.revealAt p).size p.1 p.2).foldl
                 floodAdjStep ((g.revealAt p), rest)).2
               (complete ++ [p]) : Option (HexGrid × List GamePos)) from rfl] at h
      by_cases hp : p ∈ complete
      · rw [if_pos hp] at h
        exact ih g rest complete res h
      · rw [if_neg hp] at h
        obtain ⟨⟨fm1, fm2, fm3, fm4⟩, ff, fr, fw, fn⟩ :=
          floodAdjFold_effects (adjacentPositions (g.revealAt p).size p.1 p.2)
            (g.revealAt p) rest
        obtain ⟨⟨rm1, rm2, rm3, rm4⟩, rf, rr, rw2, rn⟩ := ih _ _ _ res h
        refine ⟨⟨?_, ?_, ?_, ?_⟩, ?_, ?_, ?_, ?_⟩
        · exact rm1.trans (fm1.trans (by rfl))
        · exact rm2.trans (fm2.trans (by rfl))
        · exact rm3.trans (fm3.trans (by rfl))
        · exact rm4.trans (fm4.trans (by rfl))
        · intro q
          refine ⟨?_, ?_⟩
          · exact ((rf q).1).trans (((ff q).1).trans (flag_revealAt g p q))
          · exact ((rf q).2).trans (((ff q).2).trans (mine_revealAt g p q))
        · intro q hq
          have h1 : ((g.revealAt p).getTile q).flag = true :=
            (flag_revealAt g p q).trans hq
          have h2 : (((adjacentPositions (g.revealAt p).size p.1 p.2).foldl
              floodAdjStep ((g.revealAt p), rest)).1.getTile q).flag = true :=
            ((ff q).1).trans h1
          exact ((rr q h2).trans (fr q h1)).trans (revealed_revealAt_flagged g p q hq)
        · intro hh
          exact rw2 (fw (wf_setTile _ _ hh))
        · intro hh
          exact rn (fn (noFlagRevealed_revealAt p hh))

/-- The same effects for `reveal_mines_from`. -/
lemma revealMinesFrom_effects (g : HexGrid) (x y : Int) :
    ((g.revealMinesFrom x y).size = g.size ∧
      (g.revealMinesFrom x y).mineCount = g.mineCount ∧
      (g.revealMinesFrom x y).startTime = g.startTime ∧
      (g.revealMinesFrom x y).minesHaveBeenGenerated = g.minesHaveBeenGenerated) ∧
    (∀ q, ((g.revealMinesFrom x y).getTile q).flag = (g.getTile q).flag ∧
      ((g.revealMinesFrom x y).getTile q).mine = (g.getTile q).mine) ∧
    (∀ q, (g.getTile q).flag = true →
      ((g.revealMinesFrom x y).getTile q).revealed = (g.getTile q).revealed) ∧
    (g.WF → (g.revealMinesFrom x y).WF) ∧
    (NoFlagRevealed g → NoFlagRevealed (g.revealMinesFrom x y)) := by
  unfold HexGrid.revealMinesFrom
  rcases hres : floodAux (floodFuel g) g [(x, y)] [] with _ | gc
  · exact ⟨⟨rfl, rfl, rfl, rfl⟩, fun q => ⟨rfl, rfl⟩, fun q _ => rfl,
      fun hh => hh, fun hh => hh⟩
  · exact floodAux_effects (floodFuel g) g [(x, y)] [] gc hres

/-- The evaluator either leaves the grid alone or replaces it by a fresh grid
with the same size and mine count. -/
lemma restartIfGameIsOver_result {g : HexGrid} {now : Int} {g' : HexGrid}
    {st : GameStatus} {ev : List GameEvent}
    (h : g.restartIfGameIsOver now = .ok (g', st, ev)) :
    g' = g ∨ g' = initGameUnchecked g.size g.mineCount now := by
  obtain ⟨hs, hm, -, -⟩ := forceRevealUnflagged_meta g
  unfold HexGrid.restartIfGameIsOver at h
  by_cases h0 : !g.minesHaveBeenGenerated
  · rw [if_pos h0] at h
    obtain ⟨h1, -⟩ := Prod.mk.injEq .. ▸ Except.ok.inj h
    exact Or.inl h1.symm
  · rw [if_neg h0] at h
    by_cases h1 : safeHiddenTileCount g = 0
    · rw [if_pos h1] at h
      rcases hres : (forceRevealUnflagged g).restartGame none none now with e | g2
      · simp only [hres] at h
        exact absurd h (by simp)
      · simp only [hres] at h
        obtain ⟨h2, -⟩ := Prod.mk.injEq .. ▸ Except.ok.inj h
        unfold HexGrid.restartGame initGame at hres
        simp only [falsyOr] at hres
        split at hres
        · exact absurd hres (by simp)
        · have h3 := Except.ok.inj hres
          right
          rw [← h2, ← h3, hs, hm]
    · rw [if_neg h1] at h
      by_cases h2 : !(revealedMinePositions g).isEmpty
      · rw [if_pos h2] at h
        rcases hres : (forceRevealUnflagged g).restartGame none none now with e | g2
        · simp only [hres] at h
          exact absurd h (by simp)
        · simp only [hres] at h
          obtain ⟨h3, -⟩ := Prod.mk.injEq .. ▸ Except.ok.inj h
          unfold HexGrid.restartGame initGame at hres
          simp only [falsyOr] at hres
          split at hres
          · exact absurd hres (by simp)
          · have h4 := Except.ok.inj hres
            right
            rw [← h3, ← h4, hs, hm]
      · rw [if_neg h2] at h
        obtain ⟨h3, -⟩ := Prod.mk.injEq .. ▸ Except.ok.inj h
        exact Or.inl h3.symm

lemma flagInv_initGameUnchecked {size m now : Int} (hm : 0 ≤ m) :
    FlagInv (initGameUnchecked size m now) := by
  constructor
  · rw [totalFlagCount_initGameUnchecked]
    exact hm
  · exact hm

lemma flagInv_of_pointwise {g g' : HexGrid} (hs : g'.size = g.size)
    (hm : g'.mineCount = g.mineCount)
    (hf : ∀ q, (g'.getTile q).flag = (g.getTile q).flag) (h : FlagInv g) :
    FlagInv g' := by
  obtain ⟨h1, h2⟩ := h
  constructor
  · rw [totalFlagCount_congr hs hf, hm]
    exact h1
  · rw [hm]
    exact h2

lemma restartIfGameIsOver_flagInv {g : HexGrid} {now : Int} {g' : HexGrid}
    {st : GameStatus} {ev : List GameEvent}
    (h : g.restartIfGameIsOver now = .ok (g', st, ev)) (hi : FlagInv g) :
    FlagInv g' := by
  rcases restartIfGameIsOver_result h with rfl | rfl
  · exact hi
  · exact flagInv_initGameUnchecked hi.2

lemma restartIfGameIsOver_noFlagRevealed {g : HexGrid} {now : Int} {g' : HexGrid}
    {st : GameStatus} {ev : List GameEvent}
    (h : g.restartIfGameIsOver now = .ok (g', st, ev)) (hi : NoFlagRevealed g) :
    NoFlagRevealed g' := by
  rcases restartIfGameIsOver_result h with rfl | rfl
  · exact hi
  · exact noFlagRevealed_initGameUnchecked _ _ _

/-- `unset_flag` can only lower a tile's flag. -/
lemma tile_flag_unset_le (c : Int) (t : Tile) :
    (t.unsetFlagTile c).flag = true → t.flag = true := by
  unfold Tile.unsetFlagTile
  by_cases hf : t.flag
  · rw [if_neg (by simp [hf])]
    by_cases hc : t.canToggleFlag c
    · rw [if_neg (by simp [hc])]
      intro hcontra
      exact absurd hcontra (by simp)
    · rw [if_pos (by simp [hc])]
      intro h
      exact h
  · rw [if_pos (by simp [hf])]
    intro h
    exact h

lemma flag_true_unsetFlagAt (g : HexGrid) (p q : GamePos) :
    ((g.unsetFlagAt p).getTile q).flag = true → (g.getTile q).flag = true := by
  unfold HexGrid.unsetFlagAt
  rw [getTile_setTile]
  split
  · next hcond =>
    intro hft
    rw [← getTile_congr_slots g hcond.1 hcond.2.1]
    exact tile_flag_unset_le _ _ hft
  · intro h
    exact h

/-- Removing a flag never raises the flag count. -/
lemma totalFlagCount_unsetFlagAt_le (g : HexGrid) (p : GamePos) :
    (g.unsetFlagAt p).totalFlagCount ≤ g.totalFlagCount := by
  unfold HexGrid.totalFlagCount
  rw [show (g.unsetFlagAt p).size = g.size from rfl]
  rw [← List.countP_eq_length_filter, ← List.countP_eq_length_filter]
  exact List.countP_mono_left (fun q _ hq => flag_true_unsetFlagAt g p q hq)

/-- An unrevealed, unflagged tile always passes the color-diffing test. -/
lemma canToggle_unrevealed_unflagged (c : Int) (t : Tile) (hf : t.flag = false)
    (hr : t.revealed = false) : t.canToggleFlag c = true := by
  obtain ⟨r, m, f⟩ := t
  simp only at hf hr
  subst hf
  subst hr
  rfl

/-- `primary_click` (after the coordinate mapping) preserves both engine
invariants. -/
lemma primaryClickAt_inv {g : HexGrid} {x y : Int} {sample : List GamePos}
    {now : Int} {g' : HexGrid} {ev : List GameEvent}
    (h : g.primaryClickAt x y sample now = .ok (g', ev)) :
    (NoFlagRevealed g → NoFlagRevealed g') ∧ (FlagInv g → FlagInv g') := by
  unfold HexGrid.primaryClickAt at h
  by_cases hv : !isPositionValid g.size x y
  · rw [if_pos hv] at h
    obtain ⟨h1, -⟩ := Prod.mk.injEq .. ▸ Except.ok.inj h
    subst h1
    exact ⟨fun hh => hh, fun hh => hh⟩
  · rw [if_neg hv] at h
    by_cases hfl : (g.getTile (x, y)).flag
    · rw [if_pos hfl] at h
      obtain ⟨h1, -⟩ := Prod.mk.injEq .. ▸ Except.ok.inj h
      subst h1
      exact ⟨fun hh => hh, fun hh => hh⟩
    · rw [if_neg hfl] at h
      obtain ⟨gs, gm, gflags, -, gn⟩ := tryGenerateMines_effects g x y sample now
      have hinv1 : (NoFlagRevealed g →
          NoFlagRevealed ((g.tryGenerateMines x y sample now).revealAt (x, y))) ∧
          (FlagInv g → FlagInv ((g.tryGenerateMines x y sample now).revealAt (x, y))) := by
        constructor
        · intro hh
          exact noFlagRevealed_revealAt _ (gn hh)
        · intro hh
          refine flagInv_of_pointwise ?_ ?_ ?_ hh
          · exact gs
          · exact gm
          · intro q
            exact (flag_revealAt _ _ q).trans (gflags q).1
      set g2 := (g.tryGenerateMines x y sample now).revealAt (x, y) with hg2
      by_cases hc : g2.adjacentMineCount x y > 0
      · rw [if_pos hc] at h
        rcases hev : g2.restartIfGameIsOver now with e | trip
        · simp only [hev] at h
          exact absurd h (by simp)
        · obtain ⟨g3, st3, ev3⟩ := trip
          simp only [hev] at h
          obtain ⟨h1, -⟩ := Prod.mk.injEq .. ▸ Except.ok.inj h
          subst h1
          exact ⟨fun hh => restartIfGameIsOver_noFlagRevealed hev (hinv1.1 hh),
            fun hh => restartIfGameIsOver_flagInv hev (hinv1.2 hh)⟩
      · rw [if_neg hc] at h
        obtain ⟨⟨fs, fm, -, -⟩, fflags, -, -, fn⟩ := revealMinesFrom_effects g2 x y
        rcases hev : (g2.revealMinesFrom x y).restartIfGameIsOver now with e | trip
        · simp only [hev] at h
          exact absurd h (by simp)
        · obtain ⟨g3, st3, ev3⟩ := trip
          simp only [hev] at h
          obtain ⟨h1, -⟩ := Prod.mk.injEq .. ▸ Except.ok.inj h
          subst h1
          constructor
          · intro hh
            exact restartIfGameIsOver_noFlagRevealed hev (fn (hinv1.1 hh))
          · intro hh
            refine restartIfGameIsOver_flagInv hev ?_
            refine flagInv_of_pointwise fs fm (fun q => (fflags q).1) (hinv1.2 hh)

/-- `secondary_click` (after the coordinate mapping) preserves both engine
invariants. -/
lemma secondaryClickAt_inv {g : HexGrid} {x y : Int} {now : Int} {g' : HexGrid}
    {ev : List GameEvent} (h : g.secondaryClickAt x y now = .ok (g', ev)) :
    (NoFlagRevealed g → NoFlagRevealed g') ∧ (FlagInv g → FlagInv g') := by
  unfold HexGrid.secondaryClickAt at h
  by_cases hv : !isPositionValid g.size x y
  · rw [if_pos hv] at h
    obtain ⟨h1, -⟩ := Prod.mk.injEq .. ▸ Except.ok.inj h
    subst h1
    exact ⟨fun hh => hh, fun hh => hh⟩
  · rw [if_neg hv] at h
    by_cases hct : !g.canToggleFlagAt (x, y)
    · rw [if_pos hct] at h
      obtain ⟨h1, -⟩ := Prod.mk.injEq .. ▸ Except.ok.inj h
      subst h1
      exact ⟨fun hh => hh, fun hh => hh⟩
    · rw [if_neg hct] at h
      by_cases hfl : !(g.getTile (x, y)).flag
      · rw [if_pos hfl] at h
        by_cases hlim : g.flagLimitReached
        · rw [if_pos hlim] at h
          obtain ⟨h1, -⟩ := Prod.mk.injEq .. ▸ Except.ok.inj h
          subst h1
          exact ⟨fun hh => hh, fun hh => hh⟩
        · rw [if_neg hlim] at h
          rcases hev : (g.setFlagAt (x, y)).restartIfGameIsOver now with e | trip
          · simp only [hev] at h
            exact absurd h (by simp)
          · obtain ⟨g3, st3, ev3⟩ := trip
            simp only [hev] at h
            obtain ⟨h1, -⟩ := Prod.mk.injEq .. ▸ Except.ok.inj h
            subst h1
            constructor
            · intro hh
              exact restartIfGameIsOver_noFlagRevealed hev (noFlagRevealed_setFlagAt _ hh)
            · intro hh
              refine restartIfGameIsOver_flagInv hev ?_
              have hlt : (g.totalFlagCount : Int) < g.mineCount := by
                unfold HexGrid.flagLimitReached at hlim
                simpa using hlim
              constructor
              · have hle := totalFlagCount_setFlagAt_le g (x, y)
                have : ((g.setFlagAt (x, y)).totalFlagCount : Int) ≤
                    (g.totalFlagCount : Int) + 1 := by exact_mod_cast hle
                calc ((g.setFlagAt (x, y)).totalFlagCount : Int)
                    ≤ (g.totalFlagCount : Int) + 1 := this
                  _ ≤ g.mineCount := by omega
              · exact hh.2
      · rw [if_neg hfl] at h
        rcases hev : (g.unsetFlagAt (x, y)).restartIfGameIsOver now with e | trip
        · simp only [hev] at h
          exact absurd h (by simp)
        · obtain ⟨g3, st3, ev3⟩ := trip
          simp only [hev] at h
          obtain ⟨h1, -⟩ := Prod.mk.injEq .. ▸ Except.ok.inj h
          subst h1
          constructor
          · intro hh
            exact restartIfGameIsOver_noFlagRevealed hev (noFlagRevealed_unsetFlagAt _ hh)
          · intro hh
            refine restartIfGameIsOver_flagInv hev ?_
            constructor
            · have hle := totalFlagCount_unsetFlagAt_le g (x, y)
              have hc : ((g.unsetFlagAt (x, y)).totalFlagCount : Int) ≤
                  (g.totalFlagCount : Int) := by exact_mod_cast hle
              exact le_trans hc hh.1
            · exact hh.2

/-- Both engine invariants hold in every reachable state. -/
lemma reachable_invariants : ∀ g : HexGrid, Reachable g →
    NoFlagRevealed g ∧ FlagInv g := by
  intro g h
  induction h with
  | init size m now g hm hok =>
    have hg : g = initGameUnchecked size m now := by
      unfold initGame at hok
      split at hok
      · exact absurd hok (by simp)
      · exact (Except.ok.inj hok).symm
    subst hg
    exact ⟨noFlagRevealed_initGameUnchecked _ _ _, flagInv_initGameUnchecked hm⟩
  | restart g os om now g' hm hg hok ih =>
    have hg' : g' = initGameUnchecked (falsyOr os g.size) (falsyOr om g.mineCount) now := by
      unfold HexGrid.restartGame initGame at hok
      split at hok
      · exact absurd hok (by simp)
      · exact (Except.ok.inj hok).symm
    subst hg'
    exact ⟨noFlagRevealed_initGameUnchecked _ _ _, flagInv_initGameUnchecked hm⟩
  | generate g x y sample now hg ih =>
    obtain ⟨gs, gm, gflags, -, gn⟩ := tryGenerateMines_effects g x y sample now
    exact ⟨gn ih.1, flagInv_of_pointwise gs gm (fun q => (gflags q).1) ih.2⟩
  | flood g x y hg ih =>
    obtain ⟨⟨fs, fm, -, -⟩, fflags, -, -, fn⟩ := revealMinesFrom_effects g x y
    exact ⟨fn ih.1, flagInv_of_pointwise fs fm (fun q => (fflags q).1) ih.2⟩
  | evaluator g now g' st ev hg hok ih =>
    exact ⟨restartIfGameIsOver_noFlagRevealed hok ih.1,
      restartIfGameIsOver_flagInv hok ih.2⟩
  | primary g x y sample now g' ev hg hok ih =>
    obtain ⟨h1, h2⟩ := primaryClickAt_inv hok
    exact ⟨h1 ih.1, h2 ih.2⟩
  | secondary g x y now g' ev hg hok ih =>
    obtain ⟨h1, h2⟩ := secondaryClickAt_inv hok
    exact ⟨h1 ih.1, h2 ih.2⟩

/-! ## C4: flagged tiles are never revealed -/

/-- C4: `reveal()` on a flagged tile is a silent no-op; in every grid state
reachable from construction through the engine operations (primary and
secondary clicks, mine generation, flood fill, the game-over evaluator with
its force-reveal, and restart) no tile is simultaneously flagged and revealed;
and neither the flood fill nor the terminal-state force-reveal ever changes
the revealed state (or the flag) of a flagged tile. -/
theorem flaggedTilesNeverRevealed :
    (∀ t : Tile, t.flag = true → t.reveal = t) ∧
    (∀ g : HexGrid, Reachable g → NoFlagRevealed g) ∧
    (∀ (g : HexGrid) (x y : Int) (q : GamePos), (g.getTile q).flag = true →
      ((g.revealMinesFrom x y).getTile q).flag = (g.getTile q).flag ∧
      ((g.revealMinesFrom x y).getTile q).revealed = (g.getTile q).revealed) ∧
    (∀ (g : HexGrid) (q : GamePos), (g.getTile q).flag = true →
      ((forceRevealUnflagged g).getTile q).flag = (g.getTile q).flag ∧
      ((forceRevealUnflagged g).getTile q).revealed = (g.getTile q).revealed) := by
  refine ⟨?_, ?_, ?_, ?_⟩
  · intro t ht
    unfold Tile.reveal
    rw [if_pos ht]
  · intro g h
    exact (reachable_invariants g h).1
  · intro g x y q hq
    obtain ⟨-, fflags, frev, -, -⟩ := revealMinesFrom_effects g x y
    exact ⟨(fflags q).1, frev q hq⟩
  · intro g q hq
    obtain ⟨fflags, frev, -, -⟩ := foldlReveal_effects (allValidCoords g.size) g
    exact ⟨(fflags q).1, frev q hq⟩

/-- Witness for C4: the fresh size-2 grid is reachable and satisfies the
invariant, and revealing a concrete flagged tile leaves it unchanged. -/
theorem flaggedTilesNeverRevealed_witness :
    NoFlagRevealed wGrid21 ∧
    (Tile.mk false false true).reveal = Tile.mk false false true :=
  ⟨flaggedTilesNeverRevealed.2.1 wGrid21
      (Reachable.init 2 1 0 wGrid21 (by decide) (by rfl)),
    flaggedTilesNeverRevealed.1 (Tile.mk false false true) (by rfl)⟩

/-! ## C8: the flag limit -/

/-- C8: in every reachable grid state the number of flagged tiles is at most
`mineCount`; when `totalFlagCount() ≥ mineCount`, a `secondary_click` that
would place a new flag (valid position, unflagged, unrevealed tile) only
raises the flag-limit alert and leaves the grid unchanged; and a
`secondary_click` on a flagged tile (in a non-terminal position) unsets that
flag, freeing exactly one slot. -/
theorem flagLimit_spec :
    (∀ g : HexGrid, Reachable g → (g.totalFlagCount : Int) ≤ g.mineCount) ∧
    (∀ (g : HexGrid) (x y : Int) (now : Int),
      isPositionValid g.size x y = true →
      (g.getTile (x, y)).flag = false →
      (g.getTile (x, y)).revealed = false →
      (g.totalFlagCount : Int) ≥ g.mineCount →
      g.secondaryClickAt x y now =
        .ok (g, [.alert "Minesweeper" (flagLimitMessage g.mineCount)])) ∧
    (∀ (g : HexGrid) (x y : Int) (now : Int), g.WF →
      isPositionValid g.size x y = true →
      (g.getTile (x, y)).flag = true →
      safeHiddenTileCount g ≠ 0 →
      revealedMinePositions g = [] →
      g.secondaryClickAt x y now = .ok (g.unsetFlagAt (x, y), [.redraw]) ∧
      (g.unsetFlagAt (x, y)).totalFlagCount + 1 = g.totalFlagCount ∧
      ((g.unsetFlagAt (x, y)).getTile (x, y)).flag = false) := by
  refine ⟨?_, ?_, ?_⟩
  · intro g h
    exact (reachable_invariants g h).2.1
  · intro g x y now hv hf hr hlim
    unfold HexGrid.secondaryClickAt
    rw [if_neg (by simp [hv])]
    have hct : g.canToggleFlagAt (x, y) = true :=
      canToggle_unrevealed_unflagged _ _ hf hr
    rw [if_neg (by simp [hct]), if_pos (by simp [hf]),
      if_pos (by unfold HexGrid.flagLimitReached; simpa using hlim)]
  · intro g x y now hwf hv hf hsafe hmines
    have hev : (g.unsetFlagAt (x, y)).restartIfGameIsOver now =
        .ok (g.unsetFlagAt (x, y), .ongoing, [.redraw]) := by
      unfold HexGrid.restartIfGameIsOver
      by_cases hgen : !(g.unsetFlagAt (x, y)).minesHaveBeenGenerated
      · rw [if_pos hgen]
      · rw [if_neg hgen]
        have hsz : (g.unsetFlagAt (x, y)).size = g.size := rfl
        have hsafe1 : safeHiddenTileCount (g.unsetFlagAt (x, y)) =
            safeHiddenTileCount g :=
          safeHiddenTileCount_congr hsz (mine_unsetFlagAt g (x, y))
            (revealed_unsetFlagAt g (x, y))
        have hmines1 : revealedMinePositions (g.unsetFlagAt (x, y)) =
            revealedMinePositions g :=
          revealedMinePositions_congr hsz (mine_unsetFlagAt g (x, y))
            (revealed_unsetFlagAt g (x, y))
        rw [if_neg (by rw [hsafe1]; exact hsafe),
          if_neg (by rw [hmines1, hmines]; simp)]
    have hres := totalFlagCount_unsetFlagAt g (x, y) hwf hv hf
    refine ⟨?_, hres.1, hres.2⟩
    unfold HexGrid.secondaryClickAt
    rw [if_neg (by simp [hv])]
    have hct : g.canToggleFlagAt (x, y) = true := by
      unfold HexGrid.canToggleFlagAt Tile.canToggleFlag
      rw [if_pos hf]
    rw [if_neg (by simp [hct]), if_neg (by simp [hf])]
    simp only [hev]

/-- Witness for C8: the zero-mine grid is reachable with zero flags and
refuses a new flag with the alert; the flagged grid unsets its flag. -/
theorem flagLimit_spec_witness :
    ((wGridZero.totalFlagCount : Int) ≤ wGridZero.mineCount) ∧
    (wGridZero.secondaryClickAt 0 0 3 =
      .ok (wGridZero, [.alert "Minesweeper" (flagLimitMessage wGridZero.mineCount)])) ∧
    (wGridFlag.secondaryClickAt 0 0 3 = .ok (wGridFlag.unsetFlagAt (0, 0), [.redraw]) ∧
      (wGridFlag.unsetFlagAt (0, 0)).totalFlagCount + 1 = wGridFlag.totalFlagCount ∧
      ((wGridFlag.unsetFlagAt (0, 0)).getTile (0, 0)).flag = false) :=
  ⟨flagLimit_spec.1 wGridZero (Reachable.init 2 0 0 wGridZero (by decide) (by rfl)),
    flagLimit_spec.2.1 wGridZero 0 0 3 (by decide) (by decide) (by decide) (by decide),
    flagLimit_spec.2.2 wGridFlag 0 0 3 (by decide) (by decide) (by decide)
      (by decide) (by decide)⟩

/-! ## C6: the screen/game coordinate round trip -/

lemma pyInt_of_nonneg {r : ℝ} (h : 0 ≤ r) : pyInt r = ⌊r⌋ := by
  unfold pyInt
  rw [if_pos h]

/-- Half-to-even rounding is still within half a unit. -/
lemma pyRound_abs_le (r : ℝ) : |(pyRound r : ℝ) - r| ≤ 1 / 2 := by
  unfold pyRound
  have hfl : r - (⌊r⌋ : ℝ) = Int.fract r := Int.self_sub_floor r
  split
  · next hfr =>
    split
    · rw [abs_sub_comm, abs_of_nonneg (by linarith [Int.floor_le r])]
      linarith
    · push_cast
      rw [abs_of_nonneg (by linarith [Int.fract_lt_one r])]
      linarith
  · rw [abs_sub_comm]
    exact abs_sub_round r

/-- Fully evaluated form of `game_position_to_screen_coordinates`. -/
lemma toScreen_eval (size x y : Int) (a : ℝ) :
    gamePositionToScreenCoordinates size x y a =
      (a * ((highestRowCellCount size : ℝ) - (cellCountInRow size y : ℝ)) +
          2 * a * (x : ℝ) + a,
        pyInt ((y : ℝ) * (1.5 * (2 * a / Real.sqrt 3)) + 2 * a / Real.sqrt 3)) := rfl

/-- Fully evaluated form of `screen_coordinates_to_game_position`. -/
lemma toGame_eval (size : Int) (sx sy a : ℝ) :
    screenCoordinatesToGamePosition size sx sy a =
      (pyRound ((sx - a - a * ((highestRowCellCount size : ℝ) -
          (cellCountInRow size
            (pyRound ((sy - 2 * a / Real.sqrt 3) / (1.5 * (2 * a / Real.sqrt 3)))) : ℝ))) /
            a / 2),
        pyRound ((sy - 2 * a / Real.sqrt 3) / (1.5 * (2 * a / Real.sqrt 3)))) := rfl

/-- C6 (corrected): for every apothem at least 1 and every valid `(x, y)`,
mapping to screen coordinates and back recovers the position within ±1 in each
coordinate.  (For tiny positive apothems the recovery can be off by more —
see the counterexample.) -/
theorem screenRoundTrip_within_one (size x y : Int) (a : ℝ) (ha : 1 ≤ a)
    (hv : isPositionValid size x y = true) :
    |(screenCoordinatesToGamePosition size
        (gamePositionToScreenCoordinates size x y a).1
        (((gamePositionToScreenCoordinates size x y a).2 : Int) : ℝ) a).1 - x| ≤ 1 ∧
    |(screenCoordinatesToGamePosition size
        (gamePositionToScreenCoordinates size x y a).1
        (((gamePositionToScreenCoordinates size x y a).2 : Int) : ℝ) a).2 - y| ≤ 1 := by
  obtain ⟨hy0, hyr, hx0, hxr⟩ := isPositionValid_iff.mp hv
  have ha0 : (0 : ℝ) < a := by linarith
  have hs30 : (0 : ℝ) < Real.sqrt 3 := Real.sqrt_pos.mpr (by norm_num)
  have hss : Real.sqrt 3 * Real.sqrt 3 = 3 := Real.mul_self_sqrt (by norm_num)
  have hs3gt : (1.5 : ℝ) < Real.sqrt 3 := by nlinarith
  rw [toScreen_eval]
  dsimp only
  rw [toGame_eval]
  dsimp only
  set d : ℝ := 2 * a / Real.sqrt 3 with hddef
  set v : ℝ := 1.5 * d with hvdef
  have hd0 : 0 < d := div_pos (by linarith) hs30
  have hv0 : 0 < v := mul_pos (by norm_num) hd0
  have hveq : v = Real.sqrt 3 * a := by
    rw [hvdef, hddef]
    field_simp
    linear_combination (-a) * hss
  have hv15 : (1.5 : ℝ) ≤ v := by
    rw [hveq]
    nlinarith
  set s : ℝ := (y : ℝ) * v + d with hsdef
  have hyc0 : (0 : ℝ) ≤ (y : ℝ) := by exact_mod_cast hy0
  have hs0 : 0 ≤ s := by
    rw [hsdef]
    nlinarith
  rw [pyInt_of_nonneg hs0]
  set T : ℝ := (((⌊s⌋ : Int) : ℝ) - d) / v with hTdef
  have hT : T = (y : ℝ) - Int.fract s / v := by
    have hnum : s - Int.fract s - d = (y : ℝ) * v - Int.fract s := by
      rw [hsdef]
      ring
    rw [hTdef, show ((⌊s⌋ : Int) : ℝ) = s - Int.fract s from (Int.self_sub_fract s).symm,
      hnum, sub_div, mul_div_cancel_right₀ _ (ne_of_gt hv0)]
  have hb1 : |(pyRound T : ℝ) - T| ≤ 1 / 2 := pyRound_abs_le T
  have hfr0 : 0 ≤ Int.fract s / v := div_nonneg (Int.fract_nonneg s) hv0.le
  have hfr1 : Int.fract s / v ≤ 2 / 3 := by
    rw [div_le_iff hv0]
    nlinarith [Int.fract_lt_one s]
  have hTy : |T - (y : ℝ)| ≤ 2 / 3 := by
    rw [show T - (y : ℝ) = -(Int.fract s / v) from by rw [hT]; ring, abs_neg,
      abs_of_nonneg hfr0]
    exact hfr1
  have hyb : |((pyRound T : Int) : ℝ) - (y : ℝ)| ≤ 7 / 6 := by
    calc |((pyRound T : Int) : ℝ) - (y : ℝ)|
        = |(((pyRound T : Int) : ℝ) - T) + (T - (y : ℝ))| := by ring_nf
      _ ≤ |((pyRound T : Int) : ℝ) - T| + |T - (y : ℝ)| := abs_add _ _
      _ ≤ 1 / 2 + 2 / 3 := add_le_add hb1 hTy
      _ = 7 / 6 := by norm_num
  have hyint : |pyRound T - y| ≤ 1 := by
    by_contra hc
    push_neg at hc
    have h2 : (1 : Int) + 1 ≤ |pyRound T - y| := Int.add_one_le_iff.mpr hc
    have h3 : ((2 : Int) : ℝ) ≤ ((|pyRound T - y| : Int) : ℝ) := by
      exact_mod_cast h2
    rw [Int.cast_abs] at h3
    push_cast at h3
    linarith
  refine ⟨?_, hyint⟩
  have hyd := abs_le.mp hyint
  set cY : Int := cellCountInRow size (pyRound T) with hcYdef
  set cy : Int := cellCountInRow size y with hcydef
  have hdel : -1 ≤ cY - cy ∧ cY - cy ≤ 1 := by
    rw [hcYdef, hcydef]
    unfold cellCountInRow
    rcases min_cases (pyRound T) (2 * size - 2 - pyRound T) with ⟨e1, l1⟩ | ⟨e1, l1⟩ <;>
      rcases min_cases y (2 * size - 2 - y) with ⟨e2, l2⟩ | ⟨e2, l2⟩ <;>
      rw [e1, e2] <;> omega
  have harg : (a * ((highestRowCellCount size : ℝ) - (cy : ℝ)) + 2 * a * (x : ℝ) + a
      - a - a * ((highestRowCellCount size : ℝ) - (cY : ℝ))) / a / 2 =
      (x : ℝ) + ((cY : ℝ) - (cy : ℝ)) / 2 := by
    field_simp
    ring
  rw [harg]
  have hb2 : |(pyRound ((x : ℝ) + ((cY : ℝ) - (cy : ℝ)) / 2) : ℝ) -
      ((x : ℝ) + ((cY : ℝ) - (cy : ℝ)) / 2)| ≤ 1 / 2 := pyRound_abs_le _
  have hdc : |((cY : ℝ) - (cy : ℝ)) / 2| ≤ 1 / 2 := by
    have h1 : ((-1 : Int) : ℝ) ≤ (cY : ℝ) - (cy : ℝ) := by
      exact_mod_cast hdel.1
    have h2 : ((cY : ℝ) - (cy : ℝ)) ≤ ((1 : Int) : ℝ) := by
      exact_mod_cast hdel.2
    push_cast at h1 h2
    rw [abs_div, show |(2 : ℝ)| = 2 from by norm_num]
    have habs : |(cY : ℝ) - (cy : ℝ)| ≤ 1 := by
      rw [abs_le]
      exact ⟨by linarith, by linarith⟩
    linarith
  have hxb : |(pyRound ((x : ℝ) + ((cY : ℝ) - (cy : ℝ)) / 2) : ℝ) - (x : ℝ)| ≤ 1 := by
    calc |(pyRound ((x : ℝ) + ((cY : ℝ) - (cy : ℝ)) / 2) : ℝ) - (x : ℝ)|
        = |((pyRound ((x : ℝ) + ((cY : ℝ) - (cy : ℝ)) / 2) : ℝ) -
            ((x : ℝ) + ((cY : ℝ) - (cy : ℝ)) / 2)) + ((cY : ℝ) - (cy : ℝ)) / 2| := by
          ring_nf
      _ ≤ _ + _ := abs_add _ _
      _ ≤ 1 / 2 + 1 / 2 := add_le_add hb2 hdc
      _ = 1 := by norm_num
  have : ((|pyRound ((x : ℝ) + ((cY : ℝ) - (cy : ℝ)) / 2) - x| : Int) : ℝ) ≤ 1 := by
    rw [Int.cast_abs]
    push_cast
    convert hxb using 2
  exact_mod_cast this

/-- Witness for C6 at apothem 1 and the origin of a size-2 board. -/
theorem screenRoundTrip_within_one_witness :
    (1 : ℝ) ≤ 1 ∧ isPositionValid 2 0 0 = true ∧
    (|(screenCoordinatesToGamePosition 2
        (gamePositionToScreenCoordinates 2 0 0 1).1
        (((gamePositionToScreenCoordinates 2 0 0 1).2 : Int) : ℝ) 1).1 - 0| ≤ 1 ∧
      |(screenCoordinatesToGamePosition 2
        (gamePositionToScreenCoordinates 2 0 0 1).1
        (((gamePositionToScreenCoordinates 2 0 0 1).2 : Int) : ℝ) 1).2 - 0| ≤ 1) :=
  ⟨le_refl 1, by decide, screenRoundTrip_within_one 2 0 0 1 (le_refl 1) (by decide)⟩

/-- Counterexample to C6 as stated: with the positive apothem 3/10 the valid
position `(0, 1)` maps to screen coordinates whose reverse mapping lands on
row −1, two rows away from the original — outside the ±1 tolerance. -/
theorem screenRoundTrip_cex :
    (0 : ℝ) < 3 / 10 ∧ isPositionValid 2 0 1 = true ∧
    (screenCoordinatesToGamePosition 2
        (gamePositionToScreenCoordinates 2 0 1 (3 / 10)).1
        (((gamePositionToScreenCoordinates 2 0 1 (3 / 10)).2 : Int) : ℝ) (3 / 10)).2 = -1 ∧
    ¬|(screenCoordinatesToGamePosition 2
        (gamePositionToScreenCoordinates 2 0 1 (3 / 10)).1
        (((gamePositionToScreenCoordinates 2 0 1 (3 / 10)).2 : Int) : ℝ) (3 / 10)).2 - 1| ≤ 1 := by
  have hs30 : (0 : ℝ) < Real.sqrt 3 := Real.sqrt_pos.mpr (by norm_num)
  have hss : Real.sqrt 3 * Real.sqrt 3 = 3 := Real.mul_self_sqrt (by norm_num)
  have hgt : (3 / 2 : ℝ) < Real.sqrt 3 := by nlinarith
  have hyeq : (screenCoordinatesToGamePosition 2
      (gamePositionToScreenCoordinates 2 0 1 (3 / 10)).1
      (((gamePositionToScreenCoordinates 2 0 1 (3 / 10)).2 : Int) : ℝ) (3 / 10)).2 = -1 := by
    rw [toScreen_eval]
    dsimp only
    rw [toGame_eval]
    dsimp only
    have hA : (((1 : Int) : ℝ)) * (1.5 * (2 * (3 / 10) / Real.sqrt 3)) +
        2 * (3 / 10) / Real.sqrt 3 = (3 / 2) / Real.sqrt 3 := by
      push_cast
      field_simp
      ring
    rw [hA]
    have hfloor : pyInt ((3 / 2) / Real.sqrt 3) = 0 := by
      rw [pyInt_of_nonneg (by positivity)]
      rw [Int.floor_eq_iff]
      constructor
      · push_cast
        positivity
      · push_cast
        rw [div_lt_iff hs30]
        linarith
    rw [hfloor]
    have harg : ((((0 : Int)) : ℝ) - 2 * (3 / 10) / Real.sqrt 3) /
        (1.5 * (2 * (3 / 10) / Real.sqrt 3)) = -(2 / 3) := by
      push_cast
      rw [div_eq_iff (by positivity)]
      field_simp
      ring
    rw [harg]
    unfold pyRound
    have hfl : ⌊(-(2 / 3) : ℝ)⌋ = -1 := by
      rw [Int.floor_eq_iff]
      constructor <;> norm_num
    have hfr : Int.fract (-(2 / 3) : ℝ) = 1 / 3 := by
      unfold Int.fract
      rw [hfl]
      norm_num
    rw [if_neg (by rw [hfr]; norm_num), round_eq,
      show (-(2 / 3) : ℝ) + 1 / 2 = -(1 / 6) from by norm_num]
    rw [Int.floor_eq_iff]
    constructor <;> norm_num
  refine ⟨by norm_num, by decide, hyeq, ?_⟩
  rw [hyeq]
  decide

/-! ## C2: flood-fill correctness -/

lemma adjacentPositions_valid {size x y : Int} {q : GamePos}
    (h : q ∈ adjacentPositions size x y) : isPositionValid size q.1 q.2 = true := by
  unfold adjacentPositions at h
  rw [List.mem_filter] at h
  exact h.2

lemma adjacentPositions_length_le (size x y : Int) :
    (adjacentPositions size x y).length ≤ 6 := by
  unfold adjacentPositions
  split
  · exact le_trans (List.length_filter_le _ _) (by simp)
  · split
    · exact le_trans (List.length_filter_le _ _) (by simp)
    · exact le_trans (List.length_filter_le _ _) (by simp)

lemma zeroReach_valid {g : HexGrid} {p0 q : GamePos}
    (hv : isPositionValid g.size p0.1 p0.2 = true) (h : ZeroReach g p0 q) :
    isPositionValid g.size q.1 q.2 = true := by
  induction h with
  | base => exact hv
  | step hp hadj hz ih => exact adjacentPositions_valid hadj

lemma zeroReach_zero {g : HexGrid} {p0 q : GamePos}
    (h0 : g.adjacentMineCount p0.1 p0.2 = 0) (h : ZeroReach g p0 q) :
    g.adjacentMineCount q.1 q.2 = 0 := by
  induction h with
  | base => exact h0
  | step hp hadj hz ih => exact hz

/-- Pointwise description of a single `reveal` on a well-formed grid. -/
lemma revealAt_revealed_char (g : HexGrid) (a q : GamePos) (hwf : g.WF)
    (ha : isPositionValid g.size a.1 a.2 = true)
    (hq : isPositionValid g.size q.1 q.2 = true) :
    (((g.revealAt a).getTile q).revealed = true ↔
      ((g.getTile q).revealed = true ∨ (q = a ∧ (g.getTile q).flag = false))) := by
  by_cases hqa : q = a
  · subst hqa
    unfold HexGrid.revealAt
    rw [getTile_setTile_self _ hwf hq]
    unfold Tile.reveal
    by_cases hf : (g.getTile q).flag
    · rw [if_pos hf]
      constructor
      · intro h
        exact Or.inl h
      · rintro (h | ⟨-, hf2⟩)
        · exact h
        · rw [hf] at hf2
          exact absurd hf2 (by simp)
    · rw [if_neg hf]
      simp only [Bool.not_eq_true] at hf
      constructor
      · intro _h
        exact Or.inr ⟨rfl, hf⟩
      · intro _h
        rfl
  · unfold HexGrid.revealAt
    rw [getTile_setTile_ne _ ha hq (fun h => hqa h.symm)]
    constructor
    · intro h
      exact Or.inl h
    · rintro (h | ⟨hqa2, -⟩)
      · exact h
      · exact absurd hqa2 hqa

/-- The queue built by one pass over the adjacent tiles: the old queue plus
the adjacent positions with zero adjacent mines, in order. -/
lemma floodAdjFold_queue (adjs : List GamePos) :
    ∀ (g : HexGrid) (q0 : List GamePos),
      (adjs.foldl floodAdjStep (g, q0)).2 =
        q0 ++ adjs.filter (fun a => decide (g.adjacentMineCount a.1 a.2 = 0)) := by
  induction adjs with
  | nil =>
    intro g q0
    simp
  | cons a rest ih =>
    intro g q0
    rw [List.foldl_cons]
    have hcnt : ∀ z w : Int, (g.revealAt a).adjacentMineCount z w =
        g.adjacentMineCount z w :=
      fun z w => adjacentMineCount_congr
        (show (g.revealAt a).size = g.size from rfl) (mine_revealAt g a) z w
    have hstep : floodAdjStep (g, q0) a =
        ((g.revealAt a), if g.adjacentMineCount a.1 a.2 = 0 then q0 ++ [a] else q0) := by
      simp only [floodAdjStep]
      rw [hcnt]
      split <;> rfl
    rw [hstep]
    by_cases hz : g.adjacentMineCount a.1 a.2 = 0
    · rw [if_pos hz, ih]
      have hfc : rest.filter
          (fun b => decide ((g.revealAt a).adjacentMineCount b.1 b.2 = 0)) =
          rest.filter (fun b => decide (g.adjacentMineCount b.1 b.2 = 0)) :=
        List.filter_congr (fun b _ => by rw [hcnt])
      rw [hfc, List.filter_cons, if_pos (by simpa using hz)]
      simp [List.append_assoc]
    · rw [if_neg hz, ih]
      have hfc : rest.filter
          (fun b => decide ((g.revealAt a).adjacentMineCount b.1 b.2 = 0)) =
          rest.filter (fun b => decide (g.adjacentMineCount b.1 b.2 = 0)) :=
        List.filter_congr (fun b _ => by rw [hcnt])
      rw [hfc, List.filter_cons, if_neg (by simpa using hz)]

/-- The grid built by one pass over the adjacent tiles: every listed position
gets `reveal()` called on it once. -/
lemma floodAdjFold_revealed (adjs : List GamePos) :
    ∀ (g : HexGrid) (q0 : List GamePos), g.WF →
      (∀ a ∈ adjs, isPositionValid g.size a.1 a.2 = true) →
      ∀ q, isPositionValid g.size q.1 q.2 = true →
      (((adjs.foldl floodAdjStep (g, q0)).1.getTile q).revealed = true ↔
        ((g.getTile q).revealed = true ∨ (q ∈ adjs ∧ (g.getTile q).flag = false))) := by
  induction adjs with
  | nil =>
    intro g q0 hwf hvs q hq
    simp
  | cons a rest ih =>
    intro g q0 hwf hvs q hq
    rw [List.foldl_cons,
      show floodAdjStep (g, q0) a = ((g.revealAt a), (floodAdjStep (g, q0) a).2) from by
        simp only [floodAdjStep]
        split <;> rfl]
    have ha : isPositionValid g.size a.1 a.2 = true := hvs a (List.mem_cons_self a rest)
    have hwf1 : (g.revealAt a).WF := wf_setTile _ _ hwf
    have hvs1 : ∀ b ∈ rest, isPositionValid (g.revealAt a).size b.1 b.2 = true :=
      fun b hb => hvs b (List.mem_cons_of_mem a hb)
    rw [ih (g.revealAt a) _ hwf1 hvs1 q hq]
    rw [revealAt_revealed_char g a q hwf ha hq, flag_revealAt g a q]
    constructor
    · rintro ((h | ⟨h1, h2⟩) | ⟨h1, h2⟩)
      · exact Or.inl h
      · exact Or.inr ⟨h1 ▸ List.mem_cons_self a rest, h2⟩
      · exact Or.inr ⟨List.mem_cons_of_mem a h1, h2⟩
    · rintro (h | ⟨h1, h2⟩)
      · exact Or.inl (Or.inl h)
      · rcases List.mem_cons.mp h1 with h3 | h3
        · exact Or.inl (Or.inr ⟨h3, h2⟩)
        · exact Or.inr ⟨h3, h2⟩

/-- Main loop invariant of the flood fill.  `g0` is the grid at loop entry;
`g` the current grid; `queue`/`complete` the loop state; enough fuel is
assumed through the decreasing measure on queue length and uncompleted valid
positions. -/
lemma floodAux_main :
    ∀ (fuel : Nat) (g0 : HexGrid) (p0 : GamePos) (g : HexGrid)
      (queue complete : List GamePos),
    g0.WF →
    isPositionValid g0.size p0.1 p0.2 = true →
    g0.adjacentMineCount p0.1 p0.2 = 0 →
    g.size = g0.size →
    (∀ q, (g.getTile q).flag = (g0.getTile q).flag ∧
      (g.getTile q).mine = (g0.getTile q).mine) →
    g.WF →
    (∀ q, isPositionValid g0.size q.1 q.2 = true →
      ((g.getTile q).revealed = true ↔
        ((g0.getTile q).revealed = true ∨
          ((q ∈ complete ∨ ∃ c ∈ complete, q ∈ adjacentPositions g0.size c.1 c.2) ∧
            (g0.getTile q).flag = false)))) →
    (∀ p ∈ queue, ZeroReach g0 p0 p) →
    (∀ p ∈ complete, ZeroReach g0 p0 p) →
    (∀ c ∈ complete, ∀ a ∈ adjacentPositions g0.size c.1 c.2,
      g0.adjacentMineCount a.1 a.2 = 0 → a ∈ complete ∨ a ∈ queue) →
    (p0 ∈ complete ∨ p0 ∈ queue) →
    queue.length + 7 * ((allValidCoords g0.size).filter
      (fun q => decide (q ∉ complete))).length < fuel →
    ∃ gfin compfin, floodAux fuel g queue complete = some (gfin, compfin) ∧
      (∀ p, p ∈ compfin ↔ ZeroReach g0 p0 p) ∧
      (∀ q, isPositionValid g0.size q.1 q.2 = true →
        ((gfin.getTile q).revealed = true ↔
          ((g0.getTile q).revealed = true ∨
            (RevealTarget g0 p0 q ∧ (g0.getTile q).flag = false)))) ∧
      gfin.size = g0.size ∧
      (∀ q, (gfin.getTile q).flag = (g0.getTile q).flag ∧
        (gfin.getTile q).mine = (g0.getTile q).mine) := by
  intro fuel
  induction fuel with
  | zero =>
    intro g0 p0 g queue complete _ _ _ _ _ _ _ _ _ _ _ hfuel
    exact absurd hfuel (by omega)
  | succ n ih =>
    intro g0 p0 g queue complete hwf0 hv0 hz0 hsz hfm hwf hrev hq3 hc4 hclose horig hfuel
    cases queue with
    | nil =>
      have hsup : ∀ p, ZeroReach g0 p0 p → p ∈ complete := by
        intro p hp
        induction hp with
        | base =>
          rcases horig with h | h
          · exact h
          · exact absurd h (List.not_mem_nil p0)
        | step hzr hadj hz ihz =>
          rcases hclose _ ihz _ hadj hz with h | h
          · exact h
          · exact absurd h (List.not_mem_nil _)
      have hiff : ∀ p, p ∈ complete ↔ ZeroReach g0 p0 p :=
        fun p => ⟨hc4 p, hsup p⟩
      refine ⟨g, complete, rfl, hiff, ?_, hsz, hfm⟩
      intro q hq
      rw [hrev q hq]
      have hdiff : (q ∈ complete ∨
          ∃ c ∈ complete, q ∈ adjacentPositions g0.size c.1 c.2) ↔
          RevealTarget g0 p0 q := by
        unfold RevealTarget
        constructor
        · rintro (h | ⟨c, hc, hadj⟩)
          · exact Or.inl ((hiff q).mp h)
          · exact Or.inr ⟨c, (hiff c).mp hc, hadj⟩
        · rintro (h | ⟨c, hc, hadj⟩)
          · exact Or.inl ((hiff q).mpr h)
          · exact Or.inr ⟨c, (hiff c).mpr hc, hadj⟩
      rw [hdiff]
    | cons p rest =>
      rw [show floodAux (n + 1) g (p :: rest) complete =
          (if p ∈ complete then floodAux n g rest complete
           else
             floodAux n ((adjacentPositions (g.revealAt p).size p.1 p.2).foldl
                 floodAdjStep ((g.revealAt p), rest)).1
               ((adjacentPositions (g.revealAt p).size p.1 p.2).foldl
                 floodAdjStep ((g.revealAt p), rest)).2
               (complete ++ [p]) : Option (HexGrid × List GamePos)) from rfl]
      by_cases hp : p ∈ complete
      · rw [if_pos hp]
        refine ih g0 p0 g rest complete hwf0 hv0 hz0 hsz hfm hwf hrev
          (fun b hb => hq3 b (List.mem_cons_of_mem p hb)) hc4 ?_ ?_ ?_
        · intro c hc a ha hz
          rcases hclose c hc a ha hz with h | h
          · exact Or.inl h
          · rcases List.mem_cons.mp h with h2 | h2
            · exact Or.inl (h2 ▸ hp)
            · exact Or.inr h2
        · rcases horig with h | h
          · exact Or.inl h
          · rcases List.mem_cons.mp h with h2 | h2
            · exact Or.inl (h2 ▸ hp)
            · exact Or.inr h2
        · simp only [List.length_cons] at hfuel
          omega
      · rw [if_neg hp]
        have hzrp : ZeroReach g0 p0 p := hq3 p (List.mem_cons_self p rest)
        have hvp : isPositionValid g0.size p.1 p.2 = true := zeroReach_valid hv0 hzrp
        have hadjs : adjacentPositions (g.revealAt p).size p.1 p.2 =
            adjacentPositions g0.size p.1 p.2 := by
          rw [show (g.revealAt p).size = g.size from rfl, hsz]
        rw [hadjs]
        have hwf1 : (g.revealAt p).WF := wf_setTile _ _ hwf
        have hfm1 : ∀ q, ((g.revealAt p).getTile q).flag = (g0.getTile q).flag ∧
            ((g.revealAt p).getTile q).mine = (g0.getTile q).mine :=
          fun q => ⟨(flag_revealAt g p q).trans (hfm q).1,
            (mine_revealAt g p q).trans (hfm q).2⟩
        have hq_eq : ((adjacentPositions g0.size p.1 p.2).foldl floodAdjStep
            ((g.revealAt p), rest)).2 =
            rest ++ (adjacentPositions g0.size p.1 p.2).filter
              (fun a => decide (g0.adjacentMineCount a.1 a.2 = 0)) := by
          rw [floodAdjFold_queue]
          congr 1
          apply List.filter_congr
          intro b _
          have hcc : (g.revealAt p).adjacentMineCount b.1 b.2 =
              g0.adjacentMineCount b.1 b.2 :=
            adjacentMineCount_congr (show (g.revealAt p).size = g0.size from hsz)
              (fun q => (hfm1 q).2) b.1 b.2
          rw [hcc]
        obtain ⟨⟨em1, -, -, -⟩, eflags, -, ewf, -⟩ :=
          floodAdjFold_effects (adjacentPositions g0.size p.1 p.2) (g.revealAt p) rest
        have hsz2 : ((adjacentPositions g0.size p.1 p.2).foldl floodAdjStep
            ((g.revealAt p), rest)).1.size = g0.size := em1.trans hsz
        have hfm2 : ∀ q, (((adjacentPositions g0.size p.1 p.2).foldl floodAdjStep
            ((g.revealAt p), rest)).1.getTile q).flag = (g0.getTile q).flag ∧
            (((adjacentPositions g0.size p.1 p.2).foldl floodAdjStep
            ((g.revealAt p), rest)).1.getTile q).mine = (g0.getTile q).mine :=
          fun q => ⟨((eflags q).1).trans (hfm1 q).1, ((eflags q).2).trans (hfm1 q).2⟩
        have hwf2 : ((adjacentPositions g0.size p.1 p.2).foldl floodAdjStep
            ((g.revealAt p), rest)).1.WF := ewf hwf1
        have hadjvalid : ∀ a ∈ adjacentPositions g0.size p.1 p.2,
            isPositionValid (g.revealAt p).size a.1 a.2 = true := by
          intro a ha
          rw [show (g.revealAt p).size = g0.size from hsz]
          exact adjacentPositions_valid ha
        have hrev2 : ∀ q, isPositionValid g0.size q.1 q.2 = true →
            ((((adjacentPositions g0.size p.1 p.2).foldl floodAdjStep
              ((g.revealAt p), rest)).1.getTile q).revealed = true ↔
              ((g0.getTile q).revealed = true ∨
                ((q ∈ complete ++ [p] ∨
                  ∃ c ∈ complete ++ [p], q ∈ adjacentPositions g0.size c.1 c.2) ∧
                  (g0.getTile q).flag = false))) := by
          intro q hq
          rw [floodAdjFold_revealed (adjacentPositions g0.size p.1 p.2) (g.revealAt p)
            rest hwf1 hadjvalid q
            (by rw [show (g.revealAt p).size = g0.size from hsz]; exact hq)]
          rw [revealAt_revealed_char g p q hwf
            (by rw [hsz]; exact hvp) (by rw [hsz]; exact hq)]
          rw [hrev q hq, (hfm1 q).1, (hfm q).1]
          simp only [List.mem_append, List.mem_singleton]
          constructor
          · rintro ((h | h) | ⟨h1, h2⟩)
            · rcases h with h | ⟨hd, hf⟩
              · exact Or.inl h
              · refine Or.inr ⟨?_, hf⟩
                rcases hd with h3 | ⟨c, hc, ha2⟩
                · exact Or.inl (Or.inl h3)
                · exact Or.inr ⟨c, Or.inl hc, ha2⟩
            · exact Or.inr ⟨Or.inl (Or.inr h.1), h.2⟩
            · exact Or.inr ⟨Or.inr ⟨p, Or.inr rfl, h1⟩, h2⟩
          · rintro (h | ⟨hd, hf⟩)
            · exact Or.inl (Or.inl (Or.inl h))
            · rcases hd with (h3 | h3) | ⟨c, hc | hc, ha2⟩
              · exact Or.inl (Or.inl (Or.inr ⟨Or.inl h3, hf⟩))
              · exact Or.inl (Or.inr ⟨h3, hf⟩)
              · exact Or.inl (Or.inl (Or.inr ⟨Or.inr ⟨c, hc, ha2⟩, hf⟩))
              · rw [hc] at ha2
                exact Or.inr ⟨ha2, hf⟩
        refine ih g0 p0 _ _ (complete ++ [p]) hwf0 hv0 hz0 hsz2 hfm2 hwf2 hrev2
          ?_ ?_ ?_ ?_ ?_
        · intro b hb
          rw [hq_eq] at hb
          rcases List.mem_append.mp hb with h | h
          · exact hq3 b (List.mem_cons_of_mem p h)
          · obtain ⟨hmem, hdec⟩ := List.mem_filter.mp h
            exact ZeroReach.step hzrp hmem (of_decide_eq_true hdec)
        · intro b hb
          rcases List.mem_append.mp hb with h | h
          · exact hc4 b h
          · rw [List.mem_singleton] at h
            exact h ▸ hzrp
        · intro c hc a ha hz
          rcases List.mem_append.mp hc with h | h
          · rcases hclose c h a ha hz with h2 | h2
            · exact Or.inl (List.mem_append_left _ h2)
            · rcases List.mem_cons.mp h2 with h3 | h3
              · exact Or.inl (List.mem_append_right _ (List.mem_singleton.mpr h3))
              · refine Or.inr ?_
                rw [hq_eq]
                exact List.mem_append_left _ h3
          · rw [List.mem_singleton] at h
            subst h
            refine Or.inr ?_
            rw [hq_eq]
            exact List.mem_append_right _ (List.mem_filter.mpr ⟨ha, decide_eq_true hz⟩)
        · rcases horig with h | h
          · exact Or.inl (List.mem_append_left _ h)
          · rcases List.mem_cons.mp h with h2 | h2
            · exact Or.inl (List.mem_append_right _ (List.mem_singleton.mpr h2))
            · refine Or.inr ?_
              rw [hq_eq]
              exact List.mem_append_left _ h2
        · have hC : ((allValidCoords g0.size).filter
              (fun q => decide (q ∉ complete ++ [p]))).length + 1 =
              ((allValidCoords g0.size).filter
              (fun q => decide (q ∉ complete))).length := by
            refine length_filter_flip _ _ p (allValidCoords_nodup _)
              (mem_allValidCoords.mpr hvp) ?_ ?_ ?_
            · exact decide_eq_false (not_not_intro
                (List.mem_append_right _ (List.mem_singleton.mpr rfl)))
            · exact decide_eq_true hp
            · intro x _ hne
              exact decide_eq_decide.mpr
                (by simp [List.mem_append, List.mem_singleton, hne])
          have hql : ((adjacentPositions g0.size p.1 p.2).foldl floodAdjStep
              ((g.revealAt p), rest)).2.length ≤ rest.length + 6 := by
            rw [hq_eq, List.length_append]
            have h1 := List.length_filter_le
              (fun a => decide (g0.adjacentMineCount a.1 a.2 = 0))
              (adjacentPositions g0.size p.1 p.2)
            have h2 := adjacentPositions_length_le g0.size p.1 p.2
            omega
          simp only [List.length_cons] at hfuel
          omega

/-- C2: from any valid origin with zero adjacent mines, the flood fill
terminates and reveals exactly the connected zero-adjacent-mine region
containing the origin together with its border ring (on unflagged tiles),
completes exactly the zero region (no border tile is expanded further), and
the revealed set is characterized order-independently by the region itself. -/
theorem floodFill_spec (g : HexGrid) (x y : Int) (hwf : g.WF)
    (hv : isPositionValid g.size x y = true)
    (h0 : g.adjacentMineCount x y = 0) :
    ∃ gfin comp, floodAux (floodFuel g) g [(x, y)] [] = some (gfin, comp) ∧
      g.revealMinesFrom x y = gfin ∧
      (∀ p, p ∈ comp ↔ ZeroReach g (x, y) p) ∧
      (∀ p ∈ comp, g.adjacentMineCount p.1 p.2 = 0) ∧
      (∀ q, isPositionValid g.size q.1 q.2 = true →
        ((gfin.getTile q).revealed = true ↔
          ((g.getTile q).revealed = true ∨
            (RevealTarget g (x, y) q ∧ (g.getTile q).flag = false)))) ∧
      gfin.size = g.size ∧
      (∀ q, (gfin.getTile q).flag = (g.getTile q).flag ∧
        (gfin.getTile q).mine = (g.getTile q).mine) := by
  have hrev0 : ∀ q, isPositionValid g.size q.1 q.2 = true →
      ((g.getTile q).revealed = true ↔
        ((g.getTile q).revealed = true ∨
          ((q ∈ ([] : List GamePos) ∨
            ∃ c ∈ ([] : List GamePos), q ∈ adjacentPositions g.size c.1 c.2) ∧
            (g.getTile q).flag = false))) := by
    intro q _
    constructor
    · exact Or.inl
    · rintro (h | ⟨hd, -⟩)
      · exact h
      · rcases hd with h2 | ⟨c, hc, -⟩
        · exact absurd h2 (List.not_mem_nil q)
        · exact absurd hc (List.not_mem_nil c)
  have hfilter : (allValidCoords g.size).filter
      (fun q => decide (q ∉ ([] : List GamePos))) = allValidCoords g.size :=
    List.filter_eq_self.mpr (fun a _ => decide_eq_true (List.not_mem_nil a))
  obtain ⟨gfin, comp, heq, hcomp, hrevc, hszf, hfmf⟩ :=
    floodAux_main (floodFuel g) g (x, y) g [(x, y)] [] hwf hv h0 rfl
      (fun q => ⟨rfl, rfl⟩) hwf hrev0
      (fun b hb => by
        rw [List.mem_singleton] at hb
        exact hb ▸ ZeroReach.base)
      (fun b hb => absurd hb (List.not_mem_nil b))
      (fun c hc => absurd hc (List.not_mem_nil c))
      (Or.inr (List.mem_singleton.mpr rfl))
      (by
        rw [hfilter]
        show 1 + 7 * (allValidCoords g.size).length <
          7 * (allValidCoords g.size).length + 2
        omega)
  refine ⟨gfin, comp, heq, ?_, hcomp, ?_, hrevc, hszf, hfmf⟩
  · unfold HexGrid.revealMinesFrom
    rw [heq]
  · exact fun p hp => zeroReach_zero h0 ((hcomp p).mp hp)

/-- The C2 theorem holds at a concrete fresh size-2 grid and origin (0,0). -/
theorem floodFill_spec_witness :
    ∃ gfin comp, floodAux (floodFuel wGrid21) wGrid21 [(0, 0)] [] = some (gfin, comp) ∧
      wGrid21.revealMinesFrom 0 0 = gfin ∧
      (∀ p, p ∈ comp ↔ ZeroReach wGrid21 (0, 0) p) ∧
      (∀ p ∈ comp, wGrid21.adjacentMineCount p.1 p.2 = 0) ∧
      (∀ q, isPositionValid wGrid21.size q.1 q.2 = true →
        ((gfin.getTile q).revealed = true ↔
          ((wGrid21.getTile q).revealed = true ∨
            (RevealTarget wGrid21 (0, 0) q ∧ (wGrid21.getTile q).flag = false)))) ∧
      gfin.size = wGrid21.size ∧
      (∀ q, (gfin.getTile q).flag = (wGrid21.getTile q).flag ∧
        (gfin.getTile q).mine = (wGrid21.getTile q).mine) :=
  floodFill_spec wGrid21 0 0 (by decide) (by decide) (by decide)
